import Mathlib

/-!
Verification of the Zero-CAC preCAC engine
(umac/dfs/core/src/misc/dfs_zero_cac.c, CONFIG_CHAN_FREQ_API code paths).

The preCAC forest is a list of per-80MHz-band binary trees of
`precac_tree_node`s.  This file gives a shallow embedding of the tree /
forest data model and of the operations the claims are about, and proves or
refutes the claims.

Machine integers: all the counters and frequencies are small (uint8 /
uint16), and the C code promotes them to `int` before arithmetic, so they
are modelled as `Nat` / `Int`; the one place where a C conversion can wrap
(`uint8_t n_allowed_subchs = n_valid - (n_nol + n_excluded)`, which goes
through a negative `int`) is modelled with an explicit `% 256` on `Int`.
-/

/-! ### Constants

`MIN_DFS_SUBCHAN_BW`, the `DFS_5GHZ_*_CHAN_FREQ_OFFSET`s, the level-order
insertion offsets and the CAC durations live in headers that are not part
of the provided source.  They are modelled from the spec: the channel
identity rules of spec section 3 (20 MHz members of an 80 MHz band at the
center plus or minus 10 and 30 MHz, 40 MHz centers at plus or minus 20 MHz)
and the seed scenarios of section 8 force the offset values below; the
weather range 5600-5650 MHz and the 2000 ms slack are given explicitly by
the spec; the duration constants are the typical values named by the spec
(their exact values are irrelevant to every claim proved here). -/

def MIN_DFS_SUBCHAN_BW : Nat := 20

/-- Given a bandwidth, find the number of subchannels in that bandwidth. -/
def N_SUBCHS_FOR_BANDWIDTH (bw : Nat) : Nat := bw / MIN_DFS_SUBCHAN_BW

def N_SUBCHANS_FOR_80BW : Nat := 4

def DFS_CHWIDTH_20_VAL : Nat := 20
def DFS_CHWIDTH_40_VAL : Nat := 40
def DFS_CHWIDTH_80_VAL : Nat := 80

def VHT80_FREQ_OFFSET : Nat := 30

def DFS_5GHZ_NEXT_CHAN_FREQ_OFFSET : Nat := 10
def DFS_5GHZ_2ND_CHAN_FREQ_OFFSET : Nat := 30
def DFS_5GHZ_3RD_CHAN_FREQ_OFFSET : Nat := 50
def DFS_5GHZ_4TH_CHAN_FREQ_OFFSET : Nat := 70

def DFS_160MHZ_SECSEG_CHAN_OFFSET : Nat := 40

def WEATHER_CHAN_START_FREQ : Nat := 5600
def WEATHER_CHAN_END_FREQ : Nat := 5650

def MIN_PRECAC_DURATION : Nat := 60000
def MIN_WEATHER_PRECAC_DURATION : Nat := 600000
def MAX_PRECAC_DURATION : Nat := 600000
def MAX_WEATHER_PRECAC_DURATION : Nat := 6000000

def EXTRA_TIME_IN_MS : Nat := 2000

/-- Level-order insertion offsets (`initial_and_next_offsets` in
`dfs_create_precac_tree_for_freq`).  Modelled from the spec: missing header
constants; the values are forced by the channel identity of spec section 3
(80 MHz root at the band center, 40 MHz children at the center plus or
minus 20 MHz, 20 MHz leaves at plus or minus 10 and 30 MHz). -/
def INITIAL_80_CHAN_FREQ_OFFSET : Int := 0
def NEXT_80_CHAN_FREQ_OFFSET : Int := 80
def INITIAL_40_CHAN_FREQ_OFFSET : Int := -20
def NEXT_40_CHAN_FREQ_OFFSET : Int := 40
def INITIAL_20_CHAN_FREQ_OFFSET : Int := -30
def NEXT_20_CHAN_FREQ_OFFSET : Int := 20

/-- The C macro `IS_WITHIN_RANGE(_A,_B,_C)`:
`(((_A) >= ((_B)-(_C))) && ((_A) <= ((_B)+(_C))))`.
The unsigned operands are promoted to `int` before the subtraction, so the
comparison is exact integer arithmetic, modelled on `Int`. -/
def IS_WITHIN_RANGE (a b c : Nat) : Prop :=
  (b : Int) - (c : Int) ≤ (a : Int) ∧ (a : Int) ≤ (b : Int) + (c : Int)

instance (a b c : Nat) : Decidable (IS_WITHIN_RANGE a b c) := by
  unfold IS_WITHIN_RANGE; infer_instance

/-! ### Tree data model -/

/-- `struct precac_tree_node` (the `ch_ieee` field is a derived legacy
channel number never consulted by the frequency-indexed code modelled here,
so it is omitted). -/
structure precac_tree_node where
  ch_freq : Nat
  bandwidth : Nat
  n_caced_subchs : Nat
  n_nol_subchs : Nat
  n_valid_subchs : Nat
deriving DecidableEq, Repr

/-- A preCAC BSTree: a `precac_tree_node *` that is either NULL or a node
with two child pointers. -/
inductive PrecacTree where
  | nil : PrecacTree
  | node (val : precac_tree_node) (left right : PrecacTree) : PrecacTree
deriving DecidableEq, Repr

/-- `dfs_descend_precac_tree_for_freq`: if the channel is less than the
given node's channel, descend left, else right. -/
def dfs_descend_precac_tree_for_freq : PrecacTree → Nat → PrecacTree
  | .nil, _ => .nil
  | .node v l r, chan_freq => if chan_freq < v.ch_freq then l else r

/-- Number of live nodes in the tree. -/
def treeSize : PrecacTree → Nat
  | .nil => 0
  | .node _ l r => 1 + treeSize l + treeSize r

/-! Pointer positions.  The mutator loops of the C code walk a
`curr_node` pointer down from the root; a pointer into the tree is modelled
as the list of left(`true`)/right(`false`) turns from the root. -/

/-- Dereference the pointer described by `pos` (NULL becomes `none`). -/
def nodeAt : PrecacTree → List Bool → Option precac_tree_node
  | .nil, _ => none
  | .node v _ _, [] => some v
  | .node _ l r, d :: p => if d then nodeAt l p else nodeAt r p

/-- In-place update of the node the pointer `pos` refers to. -/
def updAt : PrecacTree → List Bool → (precac_tree_node → precac_tree_node) → PrecacTree
  | .nil, _, _ => .nil
  | .node v l r, [], g => .node (g v) l r
  | .node v l r, d :: p, g =>
    if d then .node v (updAt l p g) r else .node v l (updAt r p g)

/-! ### Tree queries -/

/-- `dfs_is_tree_node_marked_as_cac_for_freq`: walk down from the root; a
node with `n_caced_subchs == 0` ends the walk with false; the node whose
center is `freq` returns its (nonzero) `n_caced_subchs` as truth; the walk
steps by `dfs_descend_precac_tree_for_freq`, inlined as the comparison on
`ch_freq`. -/
def dfs_is_tree_node_marked_as_cac_for_freq : PrecacTree → Nat → Bool
  | .nil, _ => false
  | .node v l r, freq =>
    if v.n_caced_subchs = 0 then false
    else if v.ch_freq = freq then true
    else if freq < v.ch_freq then dfs_is_tree_node_marked_as_cac_for_freq l freq
    else dfs_is_tree_node_marked_as_cac_for_freq r freq

/-- The while-loop of `dfs_mark_tree_node_as_cac_done_for_freq`: on every
node of the descent path, increment `n_caced_subchs` unless it already
equals `N_SUBCHS_FOR_BANDWIDTH(bandwidth)`. -/
def markCacDoneWalk : PrecacTree → Nat → PrecacTree
  | .nil, _ => .nil
  | .node v l r, chan_freq =>
    let v2 := if v.n_caced_subchs < N_SUBCHS_FOR_BANDWIDTH v.bandwidth then
                { v with n_caced_subchs := v.n_caced_subchs + 1 }
              else v
    if chan_freq < v.ch_freq then .node v2 (markCacDoneWalk l chan_freq) r
    else .node v2 l (markCacDoneWalk r chan_freq)

/-- `dfs_mark_tree_node_as_cac_done_for_freq`: if the channel is already
marked (the idempotence guard), return without mutation; else run the
increment walk. -/
def dfs_mark_tree_node_as_cac_done_for_freq (t : PrecacTree) (chan_freq : Nat) : PrecacTree :=
  if dfs_is_tree_node_marked_as_cac_for_freq t chan_freq then t
  else markCacDoneWalk t chan_freq

/-- `dfs_unmark_tree_node_as_cac_done_for_freq`: decrement
`n_caced_subchs` down the descent path, stopping at the first node where it
is already zero. -/
def dfs_unmark_tree_node_as_cac_done_for_freq : PrecacTree → Nat → PrecacTree
  | .nil, _ => .nil
  | .node v l r, chan_freq =>
    if v.n_caced_subchs ≠ 0 then
      let v2 := { v with n_caced_subchs := v.n_caced_subchs - 1 }
      if chan_freq < v.ch_freq then
        .node v2 (dfs_unmark_tree_node_as_cac_done_for_freq l chan_freq) r
      else .node v2 l (dfs_unmark_tree_node_as_cac_done_for_freq r chan_freq)
    else .node v l r

/-- `dfs_unmark_tree_node_as_nol_for_freq`: decrement `n_nol_subchs` down
the descent path, stopping at the first node where it is already zero. -/
def dfs_unmark_tree_node_as_nol_for_freq : PrecacTree → Nat → PrecacTree
  | .nil, _ => .nil
  | .node v l r, chan_freq =>
    if v.n_nol_subchs ≠ 0 then
      let v2 := { v with n_nol_subchs := v.n_nol_subchs - 1 }
      if chan_freq < v.ch_freq then
        .node v2 (dfs_unmark_tree_node_as_nol_for_freq l chan_freq) r
      else .node v2 l (dfs_unmark_tree_node_as_nol_for_freq r chan_freq)
    else .node v l r

/-- The while-loop of `dfs_mark_tree_node_as_nol_for_freq`.  The loop
state is the whole tree plus the `curr_node` pointer (`pos`); `skel` is the
static skeleton of the tree that makes the pointer walk structurally
terminating (every tree update below preserves the shape, so `skel`
running out coincides with `curr_node` becoming NULL).  Body, mirroring the
C: if the current node's `n_nol_subchs` is below
`N_SUBCHS_FOR_BANDWIDTH(bandwidth)` increment it, else log and return; then
if this node's center is the target frequency and its `n_caced_subchs` is
nonzero, call `dfs_unmark_tree_node_as_cac_done_for_freq` on the whole
tree; finally descend. -/
def markNolLoop (skel : PrecacTree) (t : PrecacTree) (freq : Nat) (pos : List Bool) : PrecacTree :=
  match skel with
  | .nil => t
  | .node _ sl sr =>
    match nodeAt t pos with
    | none => t
    | some v =>
      if v.n_nol_subchs < N_SUBCHS_FOR_BANDWIDTH v.bandwidth then
        let t1 := updAt t pos (fun n => { n with n_nol_subchs := n.n_nol_subchs + 1 })
        let t2 := if freq = v.ch_freq ∧ v.n_caced_subchs ≠ 0 then
                    dfs_unmark_tree_node_as_cac_done_for_freq t1 freq
                  else t1
        if freq < v.ch_freq then markNolLoop sl t2 freq (pos ++ [true])
        else markNolLoop sr t2 freq (pos ++ [false])
      else t

/-- `dfs_mark_tree_node_as_nol_for_freq`. -/
def dfs_mark_tree_node_as_nol_for_freq (t : PrecacTree) (freq : Nat) : PrecacTree :=
  markNolLoop t t freq []

/-- The while-loop of `dfs_find_cac_status_for_chan_for_freq`, with its
running per-level subchannel count (halved at each descent). -/
def findCacStatusLoop : PrecacTree → Nat → Nat → Bool
  | .nil, _, _ => false
  | .node v l r, chan_freq, n_cur_lvl_subchs =>
    if v.ch_freq = chan_freq then decide (v.n_caced_subchs = n_cur_lvl_subchs)
    else if chan_freq < v.ch_freq then findCacStatusLoop l chan_freq (n_cur_lvl_subchs / 2)
    else findCacStatusLoop r chan_freq (n_cur_lvl_subchs / 2)

/-- `dfs_find_cac_status_for_chan_for_freq`. -/
def dfs_find_cac_status_for_chan_for_freq (t : PrecacTree) (chan_freq : Nat) : Bool :=
  findCacStatusLoop t chan_freq N_SUBCHANS_FOR_80BW

/-- `dfs_is_pcac_required_for_freq`: descend to the node with the given
center; false if it is fully CAC done or has NOL subchannels, true
otherwise; false if no such node exists. -/
def dfs_is_pcac_required_for_freq : PrecacTree → Nat → Bool
  | .nil, _ => false
  | .node v l r, freq =>
    if v.ch_freq = freq then
      if v.n_caced_subchs = N_SUBCHS_FOR_BANDWIDTH v.bandwidth ∨ v.n_nol_subchs ≠ 0 then false
      else true
    else if freq < v.ch_freq then dfs_is_pcac_required_for_freq l freq
    else dfs_is_pcac_required_for_freq r freq

/-! ### Forest -/

/-- `struct dfs_precac_entry` (list linkage and back pointer omitted). -/
structure dfs_precac_entry where
  vht80_ch_freq : Nat
  tree_root : PrecacTree
deriving DecidableEq, Repr

/-- `dfs_is_precac_done_on_ht20_40_80_chan_for_freq`: scan the precac list
for the first entry whose VHT80 center is within `VHT80_FREQ_OFFSET` of the
frequency; query that entry and stop (the `break`). -/
def dfs_is_precac_done_on_ht20_40_80_chan_for_freq :
    List dfs_precac_entry → Nat → Bool
  | [], _ => false
  | e :: rest, chan_freq =>
    if IS_WITHIN_RANGE chan_freq e.vht80_ch_freq VHT80_FREQ_OFFSET then
      dfs_find_cac_status_for_chan_for_freq e.tree_root chan_freq
    else dfs_is_precac_done_on_ht20_40_80_chan_for_freq rest chan_freq

/-! ### Current operating channel (exclusion source) -/

inductive phy_ch_width where
  | CH_WIDTH_20MHZ
  | CH_WIDTH_40MHZ
  | CH_WIDTH_80MHZ
  | CH_WIDTH_160MHZ
  | CH_WIDTH_80P80MHZ
  | CH_WIDTH_INVALID
deriving DecidableEq, Repr

/-- The fields of `dfs->dfs_curchan` consulted by the selection policy.
Modelled from the spec: the `WLAN_IS_CHAN_MODE_*` flag macros live in a
header outside the provided source; they are modelled as a width
discriminant carried by the channel. -/
structure dfs_channel where
  dfs_ch_mhz_freq_seg1 : Nat
  dfs_ch_mhz_freq_seg2 : Nat
  width : phy_ch_width
deriving DecidableEq, Repr

/-- `dfs_get_num_cur_subchans_in_node_freq`: number of currently-operating
subchannels falling inside the given tree node (counted only while they
still require preCAC there, to avoid double exclusion). -/
def dfs_get_num_cur_subchans_in_node_freq (curchan : dfs_channel) : PrecacTree → Nat
  | .nil => 0
  | .node v l r =>
    let exclude_pri_ch_freq := curchan.dfs_ch_mhz_freq_seg1
    let sec0 := curchan.dfs_ch_mhz_freq_seg2
    let exclude_sec_ch_freq :=
      if curchan.width = .CH_WIDTH_160MHZ then
        if sec0 < exclude_pri_ch_freq then sec0 - DFS_160MHZ_SECSEG_CHAN_OFFSET
        else sec0 + DFS_160MHZ_SECSEG_CHAN_OFFSET
      else sec0
    let chwidth_val :=
      if curchan.width = .CH_WIDTH_20MHZ then DFS_CHWIDTH_20_VAL
      else if curchan.width = .CH_WIDTH_40MHZ then DFS_CHWIDTH_40_VAL
      else DFS_CHWIDTH_80_VAL
    let n1 := if IS_WITHIN_RANGE exclude_pri_ch_freq v.ch_freq (v.bandwidth / 2) ∧
                 dfs_is_pcac_required_for_freq (.node v l r) exclude_pri_ch_freq = true
              then N_SUBCHS_FOR_BANDWIDTH chwidth_val else 0
    let n2 := if IS_WITHIN_RANGE exclude_sec_ch_freq v.ch_freq (v.bandwidth / 2) ∧
                 dfs_is_pcac_required_for_freq (.node v l r) exclude_sec_ch_freq = true
              then N_SUBCHS_FOR_BANDWIDTH chwidth_val else 0
    n1 + n2

/-- `dfs_is_cac_needed_for_bst_node_for_freq`.  The C computes
`uint8_t n_allowed_subchs = n_valid - (n_nol + n_excluded)` through `int`
arithmetic followed by a truncating conversion to `uint8_t`; that
conversion is the `% 256` below. -/
def dfs_is_cac_needed_for_bst_node_for_freq (curchan : dfs_channel) :
    PrecacTree → Nat → Bool
  | .nil, _ => false
  | .node v l r, req_bandwidth =>
    let n_excluded_subchs := dfs_get_num_cur_subchans_in_node_freq curchan (.node v l r)
    let n_subchs_for_req_bw := N_SUBCHS_FOR_BANDWIDTH req_bandwidth
    let n_allowed_subchs :=
      (((v.n_valid_subchs : Int) - ((v.n_nol_subchs : Int) + (n_excluded_subchs : Int))) % 256).toNat
    if n_allowed_subchs < n_subchs_for_req_bw ∨
       v.n_caced_subchs + v.n_nol_subchs + n_excluded_subchs = v.n_valid_subchs then false
    else true

/-- The while-loop of `dfs_find_ieee_ch_from_precac_tree_for_freq`: stop at
a node of the requested bandwidth (returning its center if it still needs
CAC, else 0); otherwise prefer the left subtree when it needs CAC, else go
right. -/
def findIeeeChLoop (curchan : dfs_channel) : PrecacTree → Nat → Nat
  | .nil, _ => 0
  | .node v l r, req_bw =>
    if v.bandwidth = req_bw then
      if dfs_is_cac_needed_for_bst_node_for_freq curchan (.node v l r) req_bw then v.ch_freq
      else 0
    else if dfs_is_cac_needed_for_bst_node_for_freq curchan l req_bw = false then
      findIeeeChLoop curchan r req_bw
    else findIeeeChLoop curchan l req_bw

/-- `dfs_find_ieee_ch_from_precac_tree_for_freq` (root pre-check plus the
walk). -/
def dfs_find_ieee_ch_from_precac_tree_for_freq (curchan : dfs_channel)
    (root : PrecacTree) (req_bw : Nat) : Nat :=
  if dfs_is_cac_needed_for_bst_node_for_freq curchan root req_bw = false then 0
  else findIeeeChLoop curchan root req_bw

/-- `dfs_get_ieeechan_for_precac_for_freq`: first nonzero candidate over
the precac list, in list order.  (The `exclude_pri/sec` arguments of the C
function are only logged; the actual exclusion is read from
`dfs->dfs_curchan` inside `dfs_get_num_cur_subchans_in_node_freq`.) -/
def dfs_get_ieeechan_for_precac_for_freq (curchan : dfs_channel) :
    List dfs_precac_entry → Nat → Nat
  | [], _ => 0
  | e :: rest, bw =>
    let c := dfs_find_ieee_ch_from_precac_tree_for_freq curchan e.tree_root bw
    if c ≠ 0 then c else dfs_get_ieeechan_for_precac_for_freq curchan rest bw

/-! ### Tree construction -/

/-- `dfs_init_precac_tree_node_for_freq` (children NULL, counters zero,
`n_valid_subchs` set unconditionally to the subchannel span). -/
def dfs_init_precac_tree_node_for_freq (freq : Nat) (bandwidth : Nat) : precac_tree_node :=
  { ch_freq := freq
    bandwidth := bandwidth
    n_caced_subchs := 0
    n_nol_subchs := 0
    n_valid_subchs := N_SUBCHS_FOR_BANDWIDTH bandwidth }

/-- `dfs_insert_node_into_bstree_for_freq`: descend to the leaf position
for the new channel and attach a freshly initialised node there. -/
def dfs_insert_node_into_bstree_for_freq : PrecacTree → Nat → Nat → PrecacTree
  | .nil, chan_freq, bandwidth =>
    .node (dfs_init_precac_tree_node_for_freq chan_freq bandwidth) .nil .nil
  | .node v l r, chan_freq, bandwidth =>
    if chan_freq < v.ch_freq then
      .node v (dfs_insert_node_into_bstree_for_freq l chan_freq bandwidth) r
    else .node v l (dfs_insert_node_into_bstree_for_freq r chan_freq bandwidth)

/-- One level's offset sequence: `for (; offset < boundary; offset += step)`
(eight iterations of fuel cover every level of the 3-deep tree). -/
def offsetsFrom : Nat → Int → Int → Int → List Int
  | 0, _, _, _ => []
  | fuel + 1, offset, boundary, step =>
    if offset < boundary then offset :: offsetsFrom fuel (offset + step) boundary step
    else []

/-- One level of `dfs_create_precac_tree_for_freq`'s insertion loop. -/
def insertLevel (t : PrecacTree) (ch_freq : Nat) (offsets : List Int) (bandwidth : Nat) :
    PrecacTree :=
  offsets.foldl
    (fun acc off => dfs_insert_node_into_bstree_for_freq acc ((ch_freq : Int) + off).toNat bandwidth)
    t

/-- `dfs_create_precac_tree_for_freq`: level-order insertion, 80 MHz root
first, bandwidth halved per level, each level running from its initial
offset to `initial + NEXT_80_CHAN_FREQ_OFFSET` in steps of its next
offset. -/
def dfs_create_precac_tree_for_freq (ch_freq : Nat) : PrecacTree :=
  let l0 := offsetsFrom 8 INITIAL_80_CHAN_FREQ_OFFSET
              (INITIAL_80_CHAN_FREQ_OFFSET + NEXT_80_CHAN_FREQ_OFFSET) NEXT_80_CHAN_FREQ_OFFSET
  let l1 := offsetsFrom 8 INITIAL_40_CHAN_FREQ_OFFSET
              (INITIAL_40_CHAN_FREQ_OFFSET + NEXT_80_CHAN_FREQ_OFFSET) NEXT_40_CHAN_FREQ_OFFSET
  let l2 := offsetsFrom 8 INITIAL_20_CHAN_FREQ_OFFSET
              (INITIAL_20_CHAN_FREQ_OFFSET + NEXT_80_CHAN_FREQ_OFFSET) NEXT_20_CHAN_FREQ_OFFSET
  let t0 := insertLevel .nil ch_freq l0 DFS_CHWIDTH_80_VAL
  let t1 := insertLevel t0 ch_freq l1 (DFS_CHWIDTH_80_VAL / 2)
  insertLevel t1 ch_freq l2 (DFS_CHWIDTH_80_VAL / 2 / 2)

/-! ### Forest-level mutators -/

/-- The inner `TAILQ_FOREACH_SAFE` dispatch shared by
`dfs_mark_precac_done_for_freq` and `dfs_mark_precac_nol_for_freq`: apply
the per-tree mutator to the first entry whose VHT80 center is within
`VHT80_FREQ_OFFSET` of the frequency, then `break`. -/
def markEntriesForFreq (op : PrecacTree → Nat → PrecacTree) :
    List dfs_precac_entry → Nat → List dfs_precac_entry
  | [], _ => []
  | e :: rest, f =>
    if IS_WITHIN_RANGE f e.vht80_ch_freq VHT80_FREQ_OFFSET then
      { e with tree_root := op e.tree_root f } :: rest
    else e :: markEntriesForFreq op rest f

/-- The `channels[]` array computed by `dfs_mark_precac_done_for_freq` from
the primary/secondary centers and the operating width (empty for the
`default:` error case). -/
def channelsForWidth (width : phy_ch_width) (pri sec : Nat) : List Nat :=
  match width with
  | .CH_WIDTH_20MHZ => [pri]
  | .CH_WIDTH_40MHZ =>
    [pri - DFS_5GHZ_NEXT_CHAN_FREQ_OFFSET, pri + DFS_5GHZ_NEXT_CHAN_FREQ_OFFSET]
  | .CH_WIDTH_80MHZ =>
    [pri - DFS_5GHZ_2ND_CHAN_FREQ_OFFSET, pri - DFS_5GHZ_NEXT_CHAN_FREQ_OFFSET,
     pri + DFS_5GHZ_NEXT_CHAN_FREQ_OFFSET, pri + DFS_5GHZ_2ND_CHAN_FREQ_OFFSET]
  | .CH_WIDTH_80P80MHZ =>
    [pri - DFS_5GHZ_2ND_CHAN_FREQ_OFFSET, pri - DFS_5GHZ_NEXT_CHAN_FREQ_OFFSET,
     pri + DFS_5GHZ_NEXT_CHAN_FREQ_OFFSET, pri + DFS_5GHZ_2ND_CHAN_FREQ_OFFSET,
     sec - DFS_5GHZ_2ND_CHAN_FREQ_OFFSET, sec - DFS_5GHZ_NEXT_CHAN_FREQ_OFFSET,
     sec + DFS_5GHZ_NEXT_CHAN_FREQ_OFFSET, sec + DFS_5GHZ_2ND_CHAN_FREQ_OFFSET]
  | .CH_WIDTH_160MHZ =>
    [pri - DFS_5GHZ_4TH_CHAN_FREQ_OFFSET, pri - DFS_5GHZ_3RD_CHAN_FREQ_OFFSET,
     pri - DFS_5GHZ_2ND_CHAN_FREQ_OFFSET, pri - DFS_5GHZ_NEXT_CHAN_FREQ_OFFSET,
     pri + DFS_5GHZ_NEXT_CHAN_FREQ_OFFSET, pri + DFS_5GHZ_2ND_CHAN_FREQ_OFFSET,
     pri + DFS_5GHZ_3RD_CHAN_FREQ_OFFSET, pri + DFS_5GHZ_4TH_CHAN_FREQ_OFFSET]
  | .CH_WIDTH_INVALID => []

/-- `dfs_mark_precac_done_for_freq` (precac-list part; the function has no
effect beyond the list). -/
def dfs_mark_precac_done_for_freq (entries : List dfs_precac_entry)
    (pri_ch_freq sec_ch_freq : Nat) (ch_width : phy_ch_width) : List dfs_precac_entry :=
  if pri_ch_freq = 0 then entries
  else (channelsForWidth ch_width pri_ch_freq sec_ch_freq).foldl
        (markEntriesForFreq dfs_mark_tree_node_as_cac_done_for_freq) entries

/-- `dfs_mark_precac_nol_for_freq` (precac-list part; the timer/agile
logic that follows the list update does not touch any tree). -/
def dfs_mark_precac_nol_for_freq (entries : List dfs_precac_entry)
    (freq_lst : List Nat) : List dfs_precac_entry :=
  freq_lst.foldl (markEntriesForFreq dfs_mark_tree_node_as_nol_for_freq) entries

/-- `dfs_unmark_precac_nol_for_freq` (precac-list part). -/
def dfs_unmark_precac_nol_for_freq (entries : List dfs_precac_entry)
    (chan_freq : Nat) : List dfs_precac_entry :=
  markEntriesForFreq dfs_unmark_tree_node_as_nol_for_freq entries chan_freq

/-! ### Agile preCAC timer -/

inductive ocac_status_t where
  | OCAC_SUCCESS
  | OCAC_RESET
  | OCAC_CANCEL
deriving DecidableEq, Repr

def FIND_IF_OVERLAP_WITH_WEATHER_FREQ_RANGE (first_ch_freq last_ch_freq : Nat) : Bool :=
  decide (first_ch_freq ≤ WEATHER_CHAN_END_FREQ) &&
  decide (WEATHER_CHAN_START_FREQ ≤ last_ch_freq)

/-- `dfs_is_pcac_on_weather_channel_for_freq`: span of subchannel centers
for the preCAC width, tested for overlap with the weather range. -/
def dfs_is_pcac_on_weather_channel_for_freq (chwidth : phy_ch_width)
    (precac_freq : Nat) : Bool :=
  match chwidth with
  | .CH_WIDTH_20MHZ =>
    FIND_IF_OVERLAP_WITH_WEATHER_FREQ_RANGE precac_freq precac_freq
  | .CH_WIDTH_40MHZ =>
    FIND_IF_OVERLAP_WITH_WEATHER_FREQ_RANGE (precac_freq - DFS_5GHZ_NEXT_CHAN_FREQ_OFFSET)
      (precac_freq + DFS_5GHZ_NEXT_CHAN_FREQ_OFFSET)
  | .CH_WIDTH_80MHZ =>
    FIND_IF_OVERLAP_WITH_WEATHER_FREQ_RANGE (precac_freq - DFS_5GHZ_2ND_CHAN_FREQ_OFFSET)
      (precac_freq + DFS_5GHZ_2ND_CHAN_FREQ_OFFSET)
  | _ => false

/-- `struct dfs_agile_cac_params` (channel-number field omitted). -/
structure dfs_agile_cac_params where
  precac_chan_freq : Nat
  precac_chwidth : phy_ch_width
  min_precac_timeout : Nat
  max_precac_timeout : Nat
deriving DecidableEq, Repr

/-- `dfs_start_agile_precac_timer`.  Returns the params as filled in for
the firmware command together with the duration handed to
`qdf_timer_mod` (the slack `EXTRA_TIME_IN_MS` is added only when the
chosen minimum is nonzero).  `timeout_override` is
`dfs->dfs_precac_timeout_override` (`-1` = default); the C computes
`override * 1000` in `int` and stores it into a `uint32_t`, hence the
`% 4294967296`. -/
def dfs_start_agile_precac_timer (timeout_override : Int)
    (ocac_status : ocac_status_t) (p : dfs_agile_cac_params) :
    dfs_agile_cac_params × Nat :=
  let pcacfreq := p.precac_chan_freq
  let chwidth := p.precac_chwidth
  let mm : Nat × Nat :=
    if ocac_status = .OCAC_SUCCESS then (0, 0)
    else if timeout_override ≠ -1 then
      (((timeout_override * 1000) % 4294967296).toNat, MAX_PRECAC_DURATION)
    else if dfs_is_pcac_on_weather_channel_for_freq chwidth pcacfreq then
      (MIN_WEATHER_PRECAC_DURATION, MAX_WEATHER_PRECAC_DURATION)
    else (MIN_PRECAC_DURATION, MAX_PRECAC_DURATION)
  let min_precac_timeout := mm.1
  let max_precac_timeout := mm.2
  let timer_arg := if min_precac_timeout ≠ 0 then min_precac_timeout + EXTRA_TIME_IN_MS
                   else min_precac_timeout
  ({ p with min_precac_timeout := min_precac_timeout,
            max_precac_timeout := max_precac_timeout },
   timer_arg)

/-! ### Operator surface: intermediate channel -/

/-- The channel descriptor returned by the regulatory collaborator.
Modelled from the spec: `regulatory.find_dot11_chan` and the
`WLAN_IS_CHAN_DFS` flag test live outside the provided source; the
collaborator is modelled as a lookup function returning a descriptor with a
DFS flag, `none` for not-found. -/
structure found_chan where
  dfs_ch_freq : Nat
  is_dfs : Bool
deriving DecidableEq, Repr

def EINVAL : Int := 22

/-- `dfs_set_precac_intermediate_chan`: `inter` is the stored
`dfs->dfs_precac_inter_chan_freq` before the call; the result is the
returned status code and the stored value after the call. -/
def dfs_set_precac_intermediate_chan (find_dot11_chan : Nat → Option found_chan)
    (inter : Nat) (freq : Nat) : Int × Nat :=
  match find_dot11_chan freq with
  | none => (-EINVAL, inter)
  | some chan =>
    if chan.is_dfs = false then (0, freq)
    else (-EINVAL, 0)

/-! ### Derived notions used by the theorems -/

/-- All nodes of a tree satisfy a predicate. -/
def AllNodes (P : precac_tree_node → Prop) : PrecacTree → Prop
  | .nil => True
  | .node v l r => P v ∧ AllNodes P l ∧ AllNodes P r

instance instDecAllNodes (P : precac_tree_node → Prop) [DecidablePred P] :
    (t : PrecacTree) → Decidable (AllNodes P t)
  | .nil => .isTrue trivial
  | .node v l r =>
    have : Decidable (AllNodes P l) := instDecAllNodes P l
    have : Decidable (AllNodes P r) := instDecAllNodes P r
    inferInstanceAs (Decidable (P v ∧ AllNodes P l ∧ AllNodes P r))

/-- The per-node counter bounds of the spec's P2, without the combined
`n_cac_done + n_nol ≤ n_valid` part. -/
def nodeBounds (v : precac_tree_node) : Prop :=
  v.n_caced_subchs ≤ v.n_valid_subchs ∧ v.n_nol_subchs ≤ v.n_valid_subchs

/-- The full per-node bounds of the spec's P2, as claimed. -/
def nodeBoundsFull (v : precac_tree_node) : Prop :=
  v.n_caced_subchs ≤ v.n_valid_subchs ∧ v.n_nol_subchs ≤ v.n_valid_subchs ∧
  v.n_caced_subchs + v.n_nol_subchs ≤ v.n_valid_subchs

/-- The internal invariant: bounds together with `n_valid` pinned to the
bandwidth's subchannel span (as the initializer sets it). -/
def nodeInv (v : precac_tree_node) : Prop :=
  v.n_caced_subchs ≤ v.n_valid_subchs ∧ v.n_nol_subchs ≤ v.n_valid_subchs ∧
  v.n_valid_subchs = N_SUBCHS_FOR_BANDWIDTH v.bandwidth

/-- Root counter projections (0 for NULL), used to state the sum rule. -/
def rootCaced : PrecacTree → Nat
  | .nil => 0
  | .node v _ _ => v.n_caced_subchs

def rootNol : PrecacTree → Nat
  | .nil => 0
  | .node v _ _ => v.n_nol_subchs

/-- The spec's P1 sum rule for `n_cac_done` at every non-leaf node. -/
def cacedSumOK : PrecacTree → Prop
  | .nil => True
  | .node _ .nil .nil => True
  | .node v l r =>
    v.n_caced_subchs = rootCaced l + rootCaced r ∧ cacedSumOK l ∧ cacedSumOK r

/-- The spec's P1 sum rule for `n_nol` at every non-leaf node. -/
def nolSumOK : PrecacTree → Prop
  | .nil => True
  | .node _ .nil .nil => True
  | .node v l r =>
    v.n_nol_subchs = rootNol l + rootNol r ∧ nolSumOK l ∧ nolSumOK r

instance instDecCacedSumOK : (t : PrecacTree) → Decidable (cacedSumOK t)
  | .nil => .isTrue trivial
  | .node _ .nil .nil => .isTrue trivial
  | .node v (.node w ll lr) r =>
    have : Decidable (cacedSumOK (.node w ll lr)) := instDecCacedSumOK _
    have : Decidable (cacedSumOK r) := instDecCacedSumOK r
    inferInstanceAs (Decidable (_ ∧ _ ∧ _))
  | .node v .nil (.node w rl rr) =>
    have : Decidable (cacedSumOK (PrecacTree.nil)) := instDecCacedSumOK _
    have : Decidable (cacedSumOK (.node w rl rr)) := instDecCacedSumOK _
    inferInstanceAs (Decidable (_ ∧ _ ∧ _))

instance instDecNolSumOK : (t : PrecacTree) → Decidable (nolSumOK t)
  | .nil => .isTrue trivial
  | .node _ .nil .nil => .isTrue trivial
  | .node v (.node w ll lr) r =>
    have : Decidable (nolSumOK (.node w ll lr)) := instDecNolSumOK _
    have : Decidable (nolSumOK r) := instDecNolSumOK r
    inferInstanceAs (Decidable (_ ∧ _ ∧ _))
  | .node v .nil (.node w rl rr) =>
    have : Decidable (nolSumOK (PrecacTree.nil)) := instDecNolSumOK _
    have : Decidable (nolSumOK (.node w rl rr)) := instDecNolSumOK _
    inferInstanceAs (Decidable (_ ∧ _ ∧ _))

/-- States reachable from the freshly built band tree for the 80 MHz
center `R` by the four tree mutators at arbitrary frequencies. -/
inductive Reach (R : Nat) : PrecacTree → Prop where
  | init : Reach R (dfs_create_precac_tree_for_freq R)
  | markCac (f : Nat) {t : PrecacTree} :
      Reach R t → Reach R (dfs_mark_tree_node_as_cac_done_for_freq t f)
  | unmarkCac (f : Nat) {t : PrecacTree} :
      Reach R t → Reach R (dfs_unmark_tree_node_as_cac_done_for_freq t f)
  | markNol (f : Nat) {t : PrecacTree} :
      Reach R t → Reach R (dfs_mark_tree_node_as_nol_for_freq t f)
  | unmarkNol (f : Nat) {t : PrecacTree} :
      Reach R t → Reach R (dfs_unmark_tree_node_as_nol_for_freq t f)

/-- The four 20 MHz subchannel center frequencies of the band rooted at
`R`. -/
def leafFreqs (R : Nat) : List Nat := [R - 30, R - 10, R + 10, R + 30]

/-- States reachable from the freshly built band tree by the exported
mutators mark-CAC-done, mark-NOL and unmark-NOL at the band's own 20 MHz
subchannel frequencies (unmark-CAC-done occurs only as mark-NOL's internal
call). -/
inductive ReachLeaf (R : Nat) : PrecacTree → Prop where
  | init : ReachLeaf R (dfs_create_precac_tree_for_freq R)
  | markCac {f : Nat} {t : PrecacTree} (hf : f ∈ leafFreqs R) :
      ReachLeaf R t → ReachLeaf R (dfs_mark_tree_node_as_cac_done_for_freq t f)
  | markNol {f : Nat} {t : PrecacTree} (hf : f ∈ leafFreqs R) :
      ReachLeaf R t → ReachLeaf R (dfs_mark_tree_node_as_nol_for_freq t f)
  | unmarkNol {f : Nat} {t : PrecacTree} (hf : f ∈ leafFreqs R) :
      ReachLeaf R t → ReachLeaf R (dfs_unmark_tree_node_as_nol_for_freq t f)

/-- The counter state of a band tree: CAC-done and NOL counters for the
root (`0`), the two 40 MHz children (`L`,`R`) and the four leaves. -/
structure BandState where
  c0 : Nat
  cL : Nat
  cR : Nat
  cLL : Nat
  cLR : Nat
  cRL : Nat
  cRR : Nat
  n0 : Nat
  nL : Nat
  nR : Nat
  nLL : Nat
  nLR : Nat
  nRL : Nat
  nRR : Nat
deriving DecidableEq, Repr

/-- The band tree for the 80 MHz center `R` carrying the counter state
`s` (the shape `dfs_create_precac_tree_for_freq` builds). -/
def mkBand (R : Nat) (s : BandState) : PrecacTree :=
  .node { ch_freq := R, bandwidth := 80, n_caced_subchs := s.c0,
          n_nol_subchs := s.n0, n_valid_subchs := 4 }
    (.node { ch_freq := R - 20, bandwidth := 40, n_caced_subchs := s.cL,
             n_nol_subchs := s.nL, n_valid_subchs := 2 }
      (.node { ch_freq := R - 30, bandwidth := 20, n_caced_subchs := s.cLL,
               n_nol_subchs := s.nLL, n_valid_subchs := 1 } .nil .nil)
      (.node { ch_freq := R - 10, bandwidth := 20, n_caced_subchs := s.cLR,
               n_nol_subchs := s.nLR, n_valid_subchs := 1 } .nil .nil))
    (.node { ch_freq := R + 20, bandwidth := 40, n_caced_subchs := s.cR,
             n_nol_subchs := s.nR, n_valid_subchs := 2 }
      (.node { ch_freq := R + 10, bandwidth := 20, n_caced_subchs := s.cRL,
               n_nol_subchs := s.nRL, n_valid_subchs := 1 } .nil .nil)
      (.node { ch_freq := R + 30, bandwidth := 20, n_caced_subchs := s.cRR,
               n_nol_subchs := s.nRR, n_valid_subchs := 1 } .nil .nil))

def bandZero : BandState :=
  { c0 := 0, cL := 0, cR := 0, cLL := 0, cLR := 0, cRL := 0, cRR := 0,
    n0 := 0, nL := 0, nR := 0, nLL := 0, nLR := 0, nRL := 0, nRR := 0 }

/-- The caced-sum invariant together with the leaf caced bounds, on band
states. -/
def bandCacedInv (s : BandState) : Prop :=
  s.cLL ≤ 1 ∧ s.cLR ≤ 1 ∧ s.cRL ≤ 1 ∧ s.cRR ≤ 1 ∧
  s.cL = s.cLL + s.cLR ∧ s.cR = s.cRL + s.cRR ∧ s.c0 = s.cL + s.cR

/-- Nodes visited on the descent path to the node whose center is `f`
(inclusive); the whole descent spine when no node has center `f`. -/
def descentPath : PrecacTree → Nat → List precac_tree_node
  | .nil, _ => []
  | .node v l r, f =>
    v :: (if v.ch_freq = f then []
          else if f < v.ch_freq then descentPath l f else descentPath r f)

/-- The is-CAC-done-for query as the spec words it (for claim C6): descend
to the node whose center equals the frequency and compare `n_cac_done`
against that node's own subchannel span `bandwidth / 20`; false if no such
node is met. -/
def specPathCacDone : PrecacTree → Nat → Bool
  | .nil, _ => false
  | .node v l r, f =>
    if v.ch_freq = f then decide (v.n_caced_subchs = N_SUBCHS_FOR_BANDWIDTH v.bandwidth)
    else if f < v.ch_freq then specPathCacDone l f
    else specPathCacDone r f

/-- The forest-level is-CAC-done query as the claim words it: some band
tree within 30 MHz of the frequency answers positively. -/
def specIsCacDone (entries : List dfs_precac_entry) (f : Nat) : Prop :=
  ∃ e ∈ entries, IS_WITHIN_RANGE f e.vht80_ch_freq VHT80_FREQ_OFFSET ∧
    specPathCacDone e.tree_root f = true

/-- Level consistency: the per-level subchannel counter that
`dfs_find_cac_status_for_chan_for_freq` maintains (starting at
`N_SUBCHANS_FOR_80BW` and halved at each descent) agrees with each visited
node's own `bandwidth / 20`. -/
def lvlConsistent : PrecacTree → Nat → Prop
  | .nil, _ => True
  | .node v l r, n =>
    N_SUBCHS_FOR_BANDWIDTH v.bandwidth = n ∧ lvlConsistent l (n / 2) ∧ lvlConsistent r (n / 2)

instance instDecLvlConsistent : (t : PrecacTree) → (n : Nat) → Decidable (lvlConsistent t n)
  | .nil, _ => .isTrue trivial
  | .node v l r, n =>
    have : Decidable (lvlConsistent l (n / 2)) := instDecLvlConsistent l (n / 2)
    have : Decidable (lvlConsistent r (n / 2)) := instDecLvlConsistent r (n / 2)
    inferInstanceAs (Decidable (_ ∧ _ ∧ _))

/-- The subtree relation (pointer into the tree). -/
inductive SubtreeOf : PrecacTree → PrecacTree → Prop where
  | refl (t : PrecacTree) : SubtreeOf t t
  | left {s : PrecacTree} (v : precac_tree_node) (l r : PrecacTree) :
      SubtreeOf s l → SubtreeOf s (.node v l r)
  | right {s : PrecacTree} (v : precac_tree_node) (l r : PrecacTree) :
      SubtreeOf s r → SubtreeOf s (.node v l r)

/-- The width class `dfs_get_num_cur_subchans_in_node_freq` derives from
the operating channel (`chwidth_val`). -/
def chwidthVal (w : phy_ch_width) : Nat :=
  if w = .CH_WIDTH_20MHZ then DFS_CHWIDTH_20_VAL
  else if w = .CH_WIDTH_40MHZ then DFS_CHWIDTH_40_VAL
  else DFS_CHWIDTH_80_VAL

/-- The per-node predicate for C4: wherever the serving primary center
appears as a node center, that node has the serving width class, the
standard `n_valid` and bounded counters. -/
def servingCenterOK (cc : dfs_channel) (v : precac_tree_node) : Prop :=
  v.ch_freq = cc.dfs_ch_mhz_freq_seg1 →
    (v.bandwidth = chwidthVal cc.width ∧
     v.n_valid_subchs = N_SUBCHS_FOR_BANDWIDTH v.bandwidth ∧
     v.n_nol_subchs ≤ v.n_valid_subchs ∧
     v.n_caced_subchs ≤ v.n_valid_subchs)

instance (cc : dfs_channel) : DecidablePred (servingCenterOK cc) := fun v => by
  unfold servingCenterOK; infer_instance

/-- Index of the first precac-list entry within 30 MHz of the frequency. -/
def firstWithinIdx : List dfs_precac_entry → Nat → Option Nat
  | [], _ => none
  | e :: rest, f =>
    if IS_WITHIN_RANGE f e.vht80_ch_freq VHT80_FREQ_OFFSET then some 0
    else (firstWithinIdx rest f).map (· + 1)

/-! Band-state transformers: the action of each tree mutator at each of the
four 20 MHz leaves, expressed on the 14 counters of a band tree.  They are
not part of the source; the evaluation theorems below prove each one equal
to the corresponding source mutator on band trees. -/

def bandMarkCacLL (s : BandState) : BandState :=
  if s.c0 = 0 ∨ s.cL = 0 ∨ s.cLL = 0 then
    { s with c0 := if s.c0 < 4 then s.c0 + 1 else s.c0,
             cL := if s.cL < 2 then s.cL + 1 else s.cL,
             cLL := if s.cLL < 1 then s.cLL + 1 else s.cLL }
  else s

def bandMarkCacLR (s : BandState) : BandState :=
  if s.c0 = 0 ∨ s.cL = 0 ∨ s.cLR = 0 then
    { s with c0 := if s.c0 < 4 then s.c0 + 1 else s.c0,
             cL := if s.cL < 2 then s.cL + 1 else s.cL,
             cLR := if s.cLR < 1 then s.cLR + 1 else s.cLR }
  else s

def bandMarkCacRL (s : BandState) : BandState :=
  if s.c0 = 0 ∨ s.cR = 0 ∨ s.cRL = 0 then
    { s with c0 := if s.c0 < 4 then s.c0 + 1 else s.c0,
             cR := if s.cR < 2 then s.cR + 1 else s.cR,
             cRL := if s.cRL < 1 then s.cRL + 1 else s.cRL }
  else s

def bandMarkCacRR (s : BandState) : BandState :=
  if s.c0 = 0 ∨ s.cR = 0 ∨ s.cRR = 0 then
    { s with c0 := if s.c0 < 4 then s.c0 + 1 else s.c0,
             cR := if s.cR < 2 then s.cR + 1 else s.cR,
             cRR := if s.cRR < 1 then s.cRR + 1 else s.cRR }
  else s

def bandMarkNolLL (s : BandState) : BandState :=
  if s.n0 < 4 then
    if s.nL < 2 then
      if s.nLL < 1 then
        if s.cLL = 0 then
          { s with n0 := s.n0 + 1, nL := s.nL + 1, nLL := s.nLL + 1 }
        else if s.c0 = 0 then
          { s with n0 := s.n0 + 1, nL := s.nL + 1, nLL := s.nLL + 1 }
        else if s.cL = 0 then
          { s with n0 := s.n0 + 1, nL := s.nL + 1, nLL := s.nLL + 1, c0 := s.c0 - 1 }
        else
          { s with n0 := s.n0 + 1, nL := s.nL + 1, nLL := s.nLL + 1,
                   c0 := s.c0 - 1, cL := s.cL - 1, cLL := s.cLL - 1 }
      else { s with n0 := s.n0 + 1, nL := s.nL + 1 }
    else { s with n0 := s.n0 + 1 }
  else s

def bandMarkNolLR (s : BandState) : BandState :=
  if s.n0 < 4 then
    if s.nL < 2 then
      if s.nLR < 1 then
        if s.cLR = 0 then
          { s with n0 := s.n0 + 1, nL := s.nL + 1, nLR := s.nLR + 1 }
        else if s.c0 = 0 then
          { s with n0 := s.n0 + 1, nL := s.nL + 1, nLR := s.nLR + 1 }
        else if s.cL = 0 then
          { s with n0 := s.n0 + 1, nL := s.nL + 1, nLR := s.nLR + 1, c0 := s.c0 - 1 }
        else
          { s with n0 := s.n0 + 1, nL := s.nL + 1, nLR := s.nLR + 1,
                   c0 := s.c0 - 1, cL := s.cL - 1, cLR := s.cLR - 1 }
      else { s with n0 := s.n0 + 1, nL := s.nL + 1 }
    else { s with n0 := s.n0 + 1 }
  else s

def bandMarkNolRL (s : BandState) : BandState :=
  if s.n0 < 4 then
    if s.nR < 2 then
      if s.nRL < 1 then
        if s.cRL = 0 then
          { s with n0 := s.n0 + 1, nR := s.nR + 1, nRL := s.nRL + 1 }
        else if s.c0 = 0 then
          { s with n0 := s.n0 + 1, nR := s.nR + 1, nRL := s.nRL + 1 }
        else if s.cR = 0 then
          { s with n0 := s.n0 + 1, nR := s.nR + 1, nRL := s.nRL + 1, c0 := s.c0 - 1 }
        else
          { s with n0 := s.n0 + 1, nR := s.nR + 1, nRL := s.nRL + 1,
                   c0 := s.c0 - 1, cR := s.cR - 1, cRL := s.cRL - 1 }
      else { s with n0 := s.n0 + 1, nR := s.nR + 1 }
    else { s with n0 := s.n0 + 1 }
  else s

def bandMarkNolRR (s : BandState) : BandState :=
  if s.n0 < 4 then
    if s.nR < 2 then
      if s.nRR < 1 then
        if s.cRR = 0 then
          { s with n0 := s.n0 + 1, nR := s.nR + 1, nRR := s.nRR + 1 }
        else if s.c0 = 0 then
          { s with n0 := s.n0 + 1, nR := s.nR + 1, nRR := s.nRR + 1 }
        else if s.cR = 0 then
          { s with n0 := s.n0 + 1, nR := s.nR + 1, nRR := s.nRR + 1, c0 := s.c0 - 1 }
        else
          { s with n0 := s.n0 + 1, nR := s.nR + 1, nRR := s.nRR + 1,
                   c0 := s.c0 - 1, cR := s.cR - 1, cRR := s.cRR - 1 }
      else { s with n0 := s.n0 + 1, nR := s.nR + 1 }
    else { s with n0 := s.n0 + 1 }
  else s

def bandUnmarkNolLL (s : BandState) : BandState :=
  if s.n0 ≠ 0 then
    if s.nL ≠ 0 then
      if s.nLL ≠ 0 then { s with n0 := s.n0 - 1, nL := s.nL - 1, nLL := s.nLL - 1 }
      else { s with n0 := s.n0 - 1, nL := s.nL - 1 }
    else { s with n0 := s.n0 - 1 }
  else s

def bandUnmarkNolLR (s : BandState) : BandState :=
  if s.n0 ≠ 0 then
    if s.nL ≠ 0 then
      if s.nLR ≠ 0 then { s with n0 := s.n0 - 1, nL := s.nL - 1, nLR := s.nLR - 1 }
      else { s with n0 := s.n0 - 1, nL := s.nL - 1 }
    else { s with n0 := s.n0 - 1 }
  else s

def bandUnmarkNolRL (s : BandState) : BandState :=
  if s.n0 ≠ 0 then
    if s.nR ≠ 0 then
      if s.nRL ≠ 0 then { s with n0 := s.n0 - 1, nR := s.nR - 1, nRL := s.nRL - 1 }
      else { s with n0 := s.n0 - 1, nR := s.nR - 1 }
    else { s with n0 := s.n0 - 1 }
  else s

def bandUnmarkNolRR (s : BandState) : BandState :=
  if s.n0 ≠ 0 then
    if s.nR ≠ 0 then
      if s.nRR ≠ 0 then { s with n0 := s.n0 - 1, nR := s.nR - 1, nRR := s.nRR - 1 }
      else { s with n0 := s.n0 - 1, nR := s.nR - 1 }
    else { s with n0 := s.n0 - 1 }
  else s

instance : DecidablePred nodeBounds := fun v => by unfold nodeBounds; infer_instance

instance : DecidablePred nodeBoundsFull := fun v => by unfold nodeBoundsFull; infer_instance

instance : DecidablePred nodeInv := fun v => by unfold nodeInv; infer_instance

instance (entries : List dfs_precac_entry) (f : Nat) : Decidable (specIsCacDone entries f) := by
  unfold specIsCacDone; infer_instance

instance (s : BandState) : Decidable (bandCacedInv s) := by
  unfold bandCacedInv; infer_instance

/-! ## Lemmas: pointer-position helpers and the bounds invariant (C1) -/

theorem allNodes_mono {P Q : precac_tree_node → Prop} (h : ∀ v, P v → Q v) :
    ∀ t, AllNodes P t → AllNodes Q t
  | .nil, _ => trivial
  | .node v l r, ⟨hv, hl, hr⟩ =>
    ⟨h v hv, allNodes_mono h l hl, allNodes_mono h r hr⟩

theorem allNodes_nodeAt {P : precac_tree_node → Prop} :
    ∀ {t : PrecacTree} {pos : List Bool} {v : precac_tree_node},
      AllNodes P t → nodeAt t pos = some v → P v
  | .nil, pos, v, _, hv => by simp [nodeAt] at hv
  | .node w l r, [], v, ⟨hw, _, _⟩, hv => by
    simp [nodeAt] at hv; exact hv ▸ hw
  | .node w l r, d :: p, v, ⟨hw, hl, hr⟩, hv => by
    cases d with
    | true => exact allNodes_nodeAt hl (by simpa [nodeAt] using hv)
    | false => exact allNodes_nodeAt hr (by simpa [nodeAt] using hv)

theorem allNodes_updAt {P : precac_tree_node → Prop} {g : precac_tree_node → precac_tree_node} :
    ∀ {t : PrecacTree} {pos : List Bool},
      AllNodes P t → (∀ v, nodeAt t pos = some v → P (g v)) →
      AllNodes P (updAt t pos g)
  | .nil, pos, _, _ => trivial
  | .node w l r, [], ⟨hw, hl, hr⟩, hg => by
    refine ⟨hg w ?_, hl, hr⟩; simp [nodeAt]
  | .node w l r, d :: p, ⟨hw, hl, hr⟩, hg => by
    cases d with
    | true =>
      refine by simpa [updAt] using
        (⟨hw, allNodes_updAt hl (fun v hv => hg v (by simpa [nodeAt] using hv)), hr⟩ :
          AllNodes P (.node w (updAt l p g) r))
    | false =>
      refine by simpa [updAt] using
        (⟨hw, hl, allNodes_updAt hr (fun v hv => hg v (by simpa [nodeAt] using hv))⟩ :
          AllNodes P (.node w l (updAt r p g)))

theorem nodeInv_markCacWalk :
    ∀ {t : PrecacTree} (f : Nat), AllNodes nodeInv t → AllNodes nodeInv (markCacDoneWalk t f)
  | .nil, f, _ => trivial
  | .node v l r, f, ⟨hv, hl, hr⟩ => by
    have hv2 : nodeInv (if v.n_caced_subchs < N_SUBCHS_FOR_BANDWIDTH v.bandwidth then
        { v with n_caced_subchs := v.n_caced_subchs + 1 } else v) := by
      unfold nodeInv at hv ⊢
      split <;> simp_all <;> omega
    unfold markCacDoneWalk
    by_cases hlt : f < v.ch_freq
    · simpa [hlt] using
        (⟨hv2, nodeInv_markCacWalk f hl, hr⟩ :
          AllNodes nodeInv (.node _ (markCacDoneWalk l f) r))
    · simpa [hlt] using
        (⟨hv2, hl, nodeInv_markCacWalk f hr⟩ :
          AllNodes nodeInv (.node _ l (markCacDoneWalk r f)))

theorem nodeInv_markCacDone {t : PrecacTree} (f : Nat) (h : AllNodes nodeInv t) :
    AllNodes nodeInv (dfs_mark_tree_node_as_cac_done_for_freq t f) := by
  unfold dfs_mark_tree_node_as_cac_done_for_freq
  split
  · exact h
  · exact nodeInv_markCacWalk f h

theorem nodeInv_unmarkCac :
    ∀ {t : PrecacTree} (f : Nat), AllNodes nodeInv t →
      AllNodes nodeInv (dfs_unmark_tree_node_as_cac_done_for_freq t f)
  | .nil, f, _ => trivial
  | .node v l r, f, ⟨hv, hl, hr⟩ => by
    have hv2 : nodeInv { v with n_caced_subchs := v.n_caced_subchs - 1 } := by
      unfold nodeInv at hv ⊢; simp_all; omega
    unfold dfs_unmark_tree_node_as_cac_done_for_freq
    split
    · split
      · exact ⟨hv2, nodeInv_unmarkCac f hl, hr⟩
      · exact ⟨hv2, hl, nodeInv_unmarkCac f hr⟩
    · exact ⟨hv, hl, hr⟩

theorem nodeInv_unmarkNol :
    ∀ {t : PrecacTree} (f : Nat), AllNodes nodeInv t →
      AllNodes nodeInv (dfs_unmark_tree_node_as_nol_for_freq t f)
  | .nil, f, _ => trivial
  | .node v l r, f, ⟨hv, hl, hr⟩ => by
    have hv2 : nodeInv { v with n_nol_subchs := v.n_nol_subchs - 1 } := by
      unfold nodeInv at hv ⊢; simp_all; omega
    unfold dfs_unmark_tree_node_as_nol_for_freq
    split
    · split
      · exact ⟨hv2, nodeInv_unmarkNol f hl, hr⟩
      · exact ⟨hv2, hl, nodeInv_unmarkNol f hr⟩
    · exact ⟨hv, hl, hr⟩

theorem nodeInv_markNolLoop :
    ∀ (skel : PrecacTree) {t : PrecacTree} (f : Nat) (pos : List Bool),
      AllNodes nodeInv t → AllNodes nodeInv (markNolLoop skel t f pos)
  | .nil, t, f, pos, h => h
  | .node sv sl sr, t, f, pos, h => by
    unfold markNolLoop
    cases hv : nodeAt t pos with
    | none => exact h
    | some v =>
      simp only []
      split
      · have h1 : AllNodes nodeInv
            (updAt t pos (fun n => { n with n_nol_subchs := n.n_nol_subchs + 1 })) := by
          refine allNodes_updAt h (fun w hw => ?_)
          have hw2 := allNodes_nodeAt h hw
          have hveq : w = v := by rw [hv] at hw; exact (Option.some.inj hw).symm
          subst hveq
          unfold nodeInv at hw2 ⊢
          simp_all
          omega
        have h2 : AllNodes nodeInv (if f = v.ch_freq ∧ v.n_caced_subchs ≠ 0 then
            dfs_unmark_tree_node_as_cac_done_for_freq
              (updAt t pos (fun n => { n with n_nol_subchs := n.n_nol_subchs + 1 })) f
          else updAt t pos (fun n => { n with n_nol_subchs := n.n_nol_subchs + 1 })) := by
          split
          · exact nodeInv_unmarkCac f h1
          · exact h1
        split
        · exact nodeInv_markNolLoop sl f (pos ++ [true]) h2
        · exact nodeInv_markNolLoop sr f (pos ++ [false]) h2
      · exact h

theorem nodeInv_markNol {t : PrecacTree} (f : Nat) (h : AllNodes nodeInv t) :
    AllNodes nodeInv (dfs_mark_tree_node_as_nol_for_freq t f) :=
  nodeInv_markNolLoop t f [] h

theorem nodeInv_insert :
    ∀ {t : PrecacTree} (f bw : Nat), AllNodes nodeInv t →
      AllNodes nodeInv (dfs_insert_node_into_bstree_for_freq t f bw)
  | .nil, f, bw, _ => by
    refine ⟨?_, trivial, trivial⟩
    unfold nodeInv dfs_init_precac_tree_node_for_freq
    simp
  | .node v l r, f, bw, ⟨hv, hl, hr⟩ => by
    unfold dfs_insert_node_into_bstree_for_freq
    split
    · exact ⟨hv, nodeInv_insert f bw hl, hr⟩
    · exact ⟨hv, hl, nodeInv_insert f bw hr⟩

theorem nodeInv_insertLevel :
    ∀ (offs : List Int) {t : PrecacTree} (cf bw : Nat), AllNodes nodeInv t →
      AllNodes nodeInv (insertLevel t cf offs bw)
  | [], t, cf, bw, h => h
  | o :: os, t, cf, bw, h => by
    unfold insertLevel
    simp only [List.foldl_cons]
    exact nodeInv_insertLevel os cf bw (nodeInv_insert _ bw h)

theorem nodeInv_create (R : Nat) :
    AllNodes nodeInv (dfs_create_precac_tree_for_freq R) := by
  unfold dfs_create_precac_tree_for_freq
  exact nodeInv_insertLevel _ R _ (nodeInv_insertLevel _ R _ (nodeInv_insertLevel _ R _ trivial))

theorem reach_nodeInv {R : Nat} {t : PrecacTree} (h : Reach R t) : AllNodes nodeInv t := by
  induction h with
  | init => exact nodeInv_create R
  | markCac f _ ih => exact nodeInv_markCacDone f ih
  | unmarkCac f _ ih => exact nodeInv_unmarkCac f ih
  | markNol f _ ih => exact nodeInv_markNol f ih
  | unmarkNol f _ ih => exact nodeInv_unmarkNol f ih

/-! ## Construction evaluation -/

/-- `dfs_create_precac_tree_for_freq` builds exactly the 7-node band tree:
80 MHz root at `R`, 40 MHz children at `R - 20` and `R + 20`, 20 MHz leaves
at `R - 30`, `R - 10`, `R + 10`, `R + 30`, all counters zero and every
`n_valid_subchs` equal to `bandwidth / 20`. -/
theorem create_eq_mkBand (R : Nat) (hR : 31 ≤ R) :
    dfs_create_precac_tree_for_freq R = mkBand R bandZero := by
  have o0 : offsetsFrom 8 INITIAL_80_CHAN_FREQ_OFFSET
      (INITIAL_80_CHAN_FREQ_OFFSET + NEXT_80_CHAN_FREQ_OFFSET) NEXT_80_CHAN_FREQ_OFFSET
      = [0] := by decide
  have o1 : offsetsFrom 8 INITIAL_40_CHAN_FREQ_OFFSET
      (INITIAL_40_CHAN_FREQ_OFFSET + NEXT_80_CHAN_FREQ_OFFSET) NEXT_40_CHAN_FREQ_OFFSET
      = [-20, 20] := by decide
  have o2 : offsetsFrom 8 INITIAL_20_CHAN_FREQ_OFFSET
      (INITIAL_20_CHAN_FREQ_OFFSET + NEXT_80_CHAN_FREQ_OFFSET) NEXT_20_CHAN_FREQ_OFFSET
      = [-30, -10, 10, 30] := by decide
  have e1 : ((R : Int) + 0).toNat = R := by omega
  have e2 : ((R : Int) + -20).toNat = R - 20 := by omega
  have e3 : ((R : Int) + 20).toNat = R + 20 := by omega
  have e4 : ((R : Int) + -30).toNat = R - 30 := by omega
  have e5 : ((R : Int) + -10).toNat = R - 10 := by omega
  have e6 : ((R : Int) + 10).toNat = R + 10 := by omega
  have e7 : ((R : Int) + 30).toNat = R + 30 := by omega
  have c1 : R - 20 < R := by omega
  have c2 : ¬ (R + 20 < R) := by omega
  have c3 : R - 30 < R := by omega
  have c4 : R - 30 < R - 20 := by omega
  have c5 : R - 10 < R := by omega
  have c6 : ¬ (R - 10 < R - 20) := by omega
  have c7 : ¬ (R + 10 < R) := by omega
  have c8 : R + 10 < R + 20 := by omega
  have c9 : ¬ (R + 30 < R) := by omega
  have c10 : ¬ (R + 30 < R + 20) := by omega
  unfold dfs_create_precac_tree_for_freq
  rw [o0, o1, o2]
  simp only [insertLevel, List.foldl_cons, List.foldl_nil, e1, e2, e3, e4, e5, e6, e7]
  simp [dfs_insert_node_into_bstree_for_freq, dfs_init_precac_tree_node_for_freq,
    N_SUBCHS_FOR_BANDWIDTH, MIN_DFS_SUBCHAN_BW, DFS_CHWIDTH_80_VAL,
    c1, c2, c3, c4, c5, c6, c7, c8, c9, c10, mkBand, bandZero]

/-! ## Mutator evaluation on band trees -/

theorem markCac_mkBand_LL (R : Nat) (s : BandState) (hR : 31 ≤ R) :
    dfs_mark_tree_node_as_cac_done_for_freq (mkBand R s) (R - 30) =
      mkBand R (bandMarkCacLL s) := by
  have f1 : R - 30 < R := by omega
  have f2 : R - 30 < R - 20 := by omega
  have g1 : ¬ (R = R - 30) := by omega
  have g2 : ¬ (R - 20 = R - 30) := by omega
  simp only [dfs_mark_tree_node_as_cac_done_for_freq, dfs_is_tree_node_marked_as_cac_for_freq,
    markCacDoneWalk, mkBand, bandMarkCacLL, N_SUBCHS_FOR_BANDWIDTH, MIN_DFS_SUBCHAN_BW,
    f1, f2, g1, g2, if_true, if_false, ite_true, ite_false, Nat.lt_irrefl]
  norm_num
  split_ifs <;> first | rfl | (push_neg at *; omega) | simp_all | (exfalso; omega)

theorem markCac_mkBand_LR (R : Nat) (s : BandState) (hR : 31 ≤ R) :
    dfs_mark_tree_node_as_cac_done_for_freq (mkBand R s) (R - 10) =
      mkBand R (bandMarkCacLR s) := by
  have f1 : R - 10 < R := by omega
  have f2 : ¬ (R - 10 < R - 20) := by omega
  have f3 : ¬ (R - 10 < R - 10) := by omega
  have g1 : ¬ (R = R - 10) := by omega
  have g2 : ¬ (R - 20 = R - 10) := by omega
  simp only [dfs_mark_tree_node_as_cac_done_for_freq, dfs_is_tree_node_marked_as_cac_for_freq,
    markCacDoneWalk, mkBand, bandMarkCacLR, N_SUBCHS_FOR_BANDWIDTH, MIN_DFS_SUBCHAN_BW,
    f1, f2, f3, g1, g2, if_true, if_false, ite_true, ite_false, Nat.lt_irrefl]
  norm_num
  split_ifs <;> first | rfl | (push_neg at *; omega) | simp_all | (exfalso; omega)

theorem markCac_mkBand_RL (R : Nat) (s : BandState) (hR : 31 ≤ R) :
    dfs_mark_tree_node_as_cac_done_for_freq (mkBand R s) (R + 10) =
      mkBand R (bandMarkCacRL s) := by
  have f1 : ¬ (R + 10 < R) := by omega
  have f2 : R + 10 < R + 20 := by omega
  have g1 : ¬ (R = R + 10) := by omega
  have g2 : ¬ (R + 20 = R + 10) := by omega
  simp only [dfs_mark_tree_node_as_cac_done_for_freq, dfs_is_tree_node_marked_as_cac_for_freq,
    markCacDoneWalk, mkBand, bandMarkCacRL, N_SUBCHS_FOR_BANDWIDTH, MIN_DFS_SUBCHAN_BW,
    f1, f2, g1, g2, if_true, if_false, ite_true, ite_false, Nat.lt_irrefl]
  norm_num
  split_ifs <;> first | rfl | (push_neg at *; omega) | simp_all | (exfalso; omega)

theorem markCac_mkBand_RR (R : Nat) (s : BandState) (hR : 31 ≤ R) :
    dfs_mark_tree_node_as_cac_done_for_freq (mkBand R s) (R + 30) =
      mkBand R (bandMarkCacRR s) := by
  have f1 : ¬ (R + 30 < R) := by omega
  have f2 : ¬ (R + 30 < R + 20) := by omega
  have f3 : ¬ (R + 30 < R + 30) := by omega
  have g1 : ¬ (R = R + 30) := by omega
  have g2 : ¬ (R + 20 = R + 30) := by omega
  simp only [dfs_mark_tree_node_as_cac_done_for_freq, dfs_is_tree_node_marked_as_cac_for_freq,
    markCacDoneWalk, mkBand, bandMarkCacRR, N_SUBCHS_FOR_BANDWIDTH, MIN_DFS_SUBCHAN_BW,
    f1, f2, f3, g1, g2, if_true, if_false, ite_true, ite_false, Nat.lt_irrefl]
  norm_num
  split_ifs <;> first | rfl | (push_neg at *; omega) | simp_all | (exfalso; omega)

theorem markNol_mkBand_LL (R : Nat) (s : BandState) (hR : 31 ≤ R) :
    dfs_mark_tree_node_as_nol_for_freq (mkBand R s) (R - 30) =
      mkBand R (bandMarkNolLL s) := by
  have f1 : R - 30 < R := by omega
  have f2 : R - 30 < R - 20 := by omega
  have g1 : ¬ (R - 30 = R) := by omega
  have g2 : ¬ (R - 30 = R - 20) := by omega
  simp only [dfs_mark_tree_node_as_nol_for_freq, markNolLoop, mkBand, bandMarkNolLL, nodeAt,
    updAt, dfs_unmark_tree_node_as_cac_done_for_freq,
    N_SUBCHS_FOR_BANDWIDTH, MIN_DFS_SUBCHAN_BW,
    f1, f2, g1, g2, if_true, if_false, ite_true, ite_false, Nat.lt_irrefl,
    List.nil_append, List.cons_append, List.append_nil]
  try norm_num
  try simp only [markNolLoop, nodeAt, updAt, dfs_unmark_tree_node_as_cac_done_for_freq,
    N_SUBCHS_FOR_BANDWIDTH, MIN_DFS_SUBCHAN_BW, Bool.false_eq_true,
    if_true, if_false, ite_true, ite_false, List.nil_append, List.cons_append, List.append_nil]
  try norm_num
  split_ifs <;>
    first
      | rfl
      | (push_neg at *; omega)
      | (simp_all [dfs_unmark_tree_node_as_cac_done_for_freq, N_SUBCHS_FOR_BANDWIDTH,
          MIN_DFS_SUBCHAN_BW]; try omega)
      | (exfalso; omega)

theorem markNol_mkBand_LR (R : Nat) (s : BandState) (hR : 31 ≤ R) :
    dfs_mark_tree_node_as_nol_for_freq (mkBand R s) (R - 10) =
      mkBand R (bandMarkNolLR s) := by
  have f1 : R - 10 < R := by omega
  have f2 : ¬ (R - 10 < R - 20) := by omega
  have f3 : ¬ (R - 10 < R - 10) := by omega
  have g1 : ¬ (R - 10 = R) := by omega
  have g2 : ¬ (R - 10 = R - 20) := by omega
  simp only [dfs_mark_tree_node_as_nol_for_freq, markNolLoop, mkBand, bandMarkNolLR, nodeAt,
    updAt, dfs_unmark_tree_node_as_cac_done_for_freq,
    N_SUBCHS_FOR_BANDWIDTH, MIN_DFS_SUBCHAN_BW,
    f1, f2, f3, g1, g2, if_true, if_false, ite_true, ite_false, Nat.lt_irrefl,
    List.nil_append, List.cons_append, List.append_nil]
  try norm_num
  try simp only [markNolLoop, nodeAt, updAt, dfs_unmark_tree_node_as_cac_done_for_freq,
    N_SUBCHS_FOR_BANDWIDTH, MIN_DFS_SUBCHAN_BW, Bool.false_eq_true,
    if_true, if_false, ite_true, ite_false, List.nil_append, List.cons_append, List.append_nil]
  try norm_num
  split_ifs <;>
    first
      | rfl
      | (push_neg at *; omega)
      | (simp_all [dfs_unmark_tree_node_as_cac_done_for_freq, N_SUBCHS_FOR_BANDWIDTH,
          MIN_DFS_SUBCHAN_BW]; try omega)
      | (exfalso; omega)

theorem markNol_mkBand_RL (R : Nat) (s : BandState) (hR : 31 ≤ R) :
    dfs_mark_tree_node_as_nol_for_freq (mkBand R s) (R + 10) =
      mkBand R (bandMarkNolRL s) := by
  have f1 : ¬ (R + 10 < R) := by omega
  have f2 : R + 10 < R + 20 := by omega
  have f3 : ¬ (R + 10 < R + 10) := by omega
  have g1 : ¬ (R + 10 = R) := by omega
  have g2 : ¬ (R + 10 = R + 20) := by omega
  simp only [dfs_mark_tree_node_as_nol_for_freq, markNolLoop, mkBand, bandMarkNolRL, nodeAt,
    updAt, dfs_unmark_tree_node_as_cac_done_for_freq,
    N_SUBCHS_FOR_BANDWIDTH, MIN_DFS_SUBCHAN_BW,
    f1, f2, f3, g1, g2, if_true, if_false, ite_true, ite_false, Nat.lt_irrefl,
    List.nil_append, List.cons_append, List.append_nil]
  try norm_num
  try simp only [markNolLoop, nodeAt, updAt, dfs_unmark_tree_node_as_cac_done_for_freq,
    N_SUBCHS_FOR_BANDWIDTH, MIN_DFS_SUBCHAN_BW, Bool.false_eq_true,
    if_true, if_false, ite_true, ite_false, List.nil_append, List.cons_append, List.append_nil]
  try norm_num
  split_ifs <;>
    first
      | rfl
      | (push_neg at *; omega)
      | (simp_all [dfs_unmark_tree_node_as_cac_done_for_freq, N_SUBCHS_FOR_BANDWIDTH,
          MIN_DFS_SUBCHAN_BW]; try omega)
      | (exfalso; omega)

theorem markNol_mkBand_RR (R : Nat) (s : BandState) (hR : 31 ≤ R) :
    dfs_mark_tree_node_as_nol_for_freq (mkBand R s) (R + 30) =
      mkBand R (bandMarkNolRR s) := by
  have f1 : ¬ (R + 30 < R) := by omega
  have f2 : ¬ (R + 30 < R + 20) := by omega
  have f3 : ¬ (R + 30 < R + 30) := by omega
  have g1 : ¬ (R + 30 = R) := by omega
  have g2 : ¬ (R + 30 = R + 20) := by omega
  simp only [dfs_mark_tree_node_as_nol_for_freq, markNolLoop, mkBand, bandMarkNolRR, nodeAt,
    updAt, dfs_unmark_tree_node_as_cac_done_for_freq,
    N_SUBCHS_FOR_BANDWIDTH, MIN_DFS_SUBCHAN_BW,
    f1, f2, f3, g1, g2, if_true, if_false, ite_true, ite_false, Nat.lt_irrefl,
    List.nil_append, List.cons_append, List.append_nil]
  try norm_num
  try simp only [markNolLoop, nodeAt, updAt, dfs_unmark_tree_node_as_cac_done_for_freq,
    N_SUBCHS_FOR_BANDWIDTH, MIN_DFS_SUBCHAN_BW, Bool.false_eq_true,
    if_true, if_false, ite_true, ite_false, List.nil_append, List.cons_append, List.append_nil]
  try norm_num
  split_ifs <;>
    first
      | rfl
      | (push_neg at *; omega)
      | (simp_all [dfs_unmark_tree_node_as_cac_done_for_freq, N_SUBCHS_FOR_BANDWIDTH,
          MIN_DFS_SUBCHAN_BW]; try omega)
      | (exfalso; omega)

theorem unmarkNol_mkBand_LL (R : Nat) (s : BandState) (hR : 31 ≤ R) :
    dfs_unmark_tree_node_as_nol_for_freq (mkBand R s) (R - 30) =
      mkBand R (bandUnmarkNolLL s) := by
  have f1 : R - 30 < R := by omega
  have f2 : R - 30 < R - 20 := by omega
  have f3 : ¬ (R - 30 < R - 30) := by omega
  simp only [dfs_unmark_tree_node_as_nol_for_freq, mkBand, bandUnmarkNolLL,
    f1, f2, f3, if_true, if_false, ite_true, ite_false]
  norm_num
  split_ifs <;> first | rfl | (push_neg at *; omega) | simp_all | (exfalso; omega)

theorem unmarkNol_mkBand_LR (R : Nat) (s : BandState) (hR : 31 ≤ R) :
    dfs_unmark_tree_node_as_nol_for_freq (mkBand R s) (R - 10) =
      mkBand R (bandUnmarkNolLR s) := by
  have f1 : R - 10 < R := by omega
  have f2 : ¬ (R - 10 < R - 20) := by omega
  have f3 : ¬ (R - 10 < R - 10) := by omega
  simp only [dfs_unmark_tree_node_as_nol_for_freq, mkBand, bandUnmarkNolLR,
    f1, f2, f3, if_true, if_false, ite_true, ite_false]
  norm_num
  split_ifs <;> first | rfl | (push_neg at *; omega) | simp_all | (exfalso; omega)

theorem unmarkNol_mkBand_RL (R : Nat) (s : BandState) (hR : 31 ≤ R) :
    dfs_unmark_tree_node_as_nol_for_freq (mkBand R s) (R + 10) =
      mkBand R (bandUnmarkNolRL s) := by
  have f1 : ¬ (R + 10 < R) := by omega
  have f2 : R + 10 < R + 20 := by omega
  have f3 : ¬ (R + 10 < R + 10) := by omega
  simp only [dfs_unmark_tree_node_as_nol_for_freq, mkBand, bandUnmarkNolRL,
    f1, f2, f3, if_true, if_false, ite_true, ite_false]
  norm_num
  split_ifs <;> first | rfl | (push_neg at *; omega) | simp_all | (exfalso; omega)

theorem unmarkNol_mkBand_RR (R : Nat) (s : BandState) (hR : 31 ≤ R) :
    dfs_unmark_tree_node_as_nol_for_freq (mkBand R s) (R + 30) =
      mkBand R (bandUnmarkNolRR s) := by
  have f1 : ¬ (R + 30 < R) := by omega
  have f2 : ¬ (R + 30 < R + 20) := by omega
  have f3 : ¬ (R + 30 < R + 30) := by omega
  simp only [dfs_unmark_tree_node_as_nol_for_freq, mkBand, bandUnmarkNolRR,
    f1, f2, f3, if_true, if_false, ite_true, ite_false]
  norm_num
  split_ifs <;> first | rfl | (push_neg at *; omega) | simp_all | (exfalso; omega)

/-! ## Caced-sum invariant preservation (C2) -/

theorem bandCacedInv_bandZero : bandCacedInv bandZero := by decide

theorem bandCacedInv_markCacLL (s : BandState) (hJ : bandCacedInv s) :
    bandCacedInv (bandMarkCacLL s) := by
  unfold bandCacedInv at *
  unfold bandMarkCacLL
  split_ifs <;> simp_all <;> omega

theorem bandCacedInv_markCacLR (s : BandState) (hJ : bandCacedInv s) :
    bandCacedInv (bandMarkCacLR s) := by
  unfold bandCacedInv at *
  unfold bandMarkCacLR
  split_ifs <;> simp_all <;> omega

theorem bandCacedInv_markCacRL (s : BandState) (hJ : bandCacedInv s) :
    bandCacedInv (bandMarkCacRL s) := by
  unfold bandCacedInv at *
  unfold bandMarkCacRL
  split_ifs <;> simp_all <;> omega

theorem bandCacedInv_markCacRR (s : BandState) (hJ : bandCacedInv s) :
    bandCacedInv (bandMarkCacRR s) := by
  unfold bandCacedInv at *
  unfold bandMarkCacRR
  split_ifs <;> simp_all <;> omega

theorem bandCacedInv_markNolLL (s : BandState) (hJ : bandCacedInv s) :
    bandCacedInv (bandMarkNolLL s) := by
  unfold bandCacedInv at *
  unfold bandMarkNolLL
  split_ifs <;> ((try simp); omega)

theorem bandCacedInv_markNolLR (s : BandState) (hJ : bandCacedInv s) :
    bandCacedInv (bandMarkNolLR s) := by
  unfold bandCacedInv at *
  unfold bandMarkNolLR
  split_ifs <;> ((try simp); omega)

theorem bandCacedInv_markNolRL (s : BandState) (hJ : bandCacedInv s) :
    bandCacedInv (bandMarkNolRL s) := by
  unfold bandCacedInv at *
  unfold bandMarkNolRL
  split_ifs <;> ((try simp); omega)

theorem bandCacedInv_markNolRR (s : BandState) (hJ : bandCacedInv s) :
    bandCacedInv (bandMarkNolRR s) := by
  unfold bandCacedInv at *
  unfold bandMarkNolRR
  split_ifs <;> ((try simp); omega)

theorem bandCacedInv_unmarkNolLL (s : BandState) (hJ : bandCacedInv s) :
    bandCacedInv (bandUnmarkNolLL s) := by
  unfold bandCacedInv at *
  unfold bandUnmarkNolLL
  split_ifs <;> simp_all

theorem bandCacedInv_unmarkNolLR (s : BandState) (hJ : bandCacedInv s) :
    bandCacedInv (bandUnmarkNolLR s) := by
  unfold bandCacedInv at *
  unfold bandUnmarkNolLR
  split_ifs <;> simp_all

theorem bandCacedInv_unmarkNolRL (s : BandState) (hJ : bandCacedInv s) :
    bandCacedInv (bandUnmarkNolRL s) := by
  unfold bandCacedInv at *
  unfold bandUnmarkNolRL
  split_ifs <;> simp_all

theorem bandCacedInv_unmarkNolRR (s : BandState) (hJ : bandCacedInv s) :
    bandCacedInv (bandUnmarkNolRR s) := by
  unfold bandCacedInv at *
  unfold bandUnmarkNolRR
  split_ifs <;> simp_all

/-- Every state reachable by the exported mutators at the band's own 20 MHz
leaf frequencies is a band tree whose counters satisfy the caced-sum
invariant. -/
theorem reachLeaf_band {R : Nat} (hR : 31 ≤ R) {t : PrecacTree} (h : ReachLeaf R t) :
    ∃ s, t = mkBand R s ∧ bandCacedInv s := by
  induction h with
  | init => exact ⟨bandZero, create_eq_mkBand R hR, bandCacedInv_bandZero⟩
  | @markCac f t hf _ ih =>
    obtain ⟨s, rfl, hJ⟩ := ih
    simp only [leafFreqs, List.mem_cons, List.mem_singleton, List.not_mem_nil, or_false] at hf
    rcases hf with rfl | rfl | rfl | rfl
    · exact ⟨bandMarkCacLL s, markCac_mkBand_LL R s hR, bandCacedInv_markCacLL s hJ⟩
    · exact ⟨bandMarkCacLR s, markCac_mkBand_LR R s hR, bandCacedInv_markCacLR s hJ⟩
    · exact ⟨bandMarkCacRL s, markCac_mkBand_RL R s hR, bandCacedInv_markCacRL s hJ⟩
    · exact ⟨bandMarkCacRR s, markCac_mkBand_RR R s hR, bandCacedInv_markCacRR s hJ⟩
  | @markNol f t hf _ ih =>
    obtain ⟨s, rfl, hJ⟩ := ih
    simp only [leafFreqs, List.mem_cons, List.mem_singleton, List.not_mem_nil, or_false] at hf
    rcases hf with rfl | rfl | rfl | rfl
    · exact ⟨bandMarkNolLL s, markNol_mkBand_LL R s hR, bandCacedInv_markNolLL s hJ⟩
    · exact ⟨bandMarkNolLR s, markNol_mkBand_LR R s hR, bandCacedInv_markNolLR s hJ⟩
    · exact ⟨bandMarkNolRL s, markNol_mkBand_RL R s hR, bandCacedInv_markNolRL s hJ⟩
    · exact ⟨bandMarkNolRR s, markNol_mkBand_RR R s hR, bandCacedInv_markNolRR s hJ⟩
  | @unmarkNol f t hf _ ih =>
    obtain ⟨s, rfl, hJ⟩ := ih
    simp only [leafFreqs, List.mem_cons, List.mem_singleton, List.not_mem_nil, or_false] at hf
    rcases hf with rfl | rfl | rfl | rfl
    · exact ⟨bandUnmarkNolLL s, unmarkNol_mkBand_LL R s hR, bandCacedInv_unmarkNolLL s hJ⟩
    · exact ⟨bandUnmarkNolLR s, unmarkNol_mkBand_LR R s hR, bandCacedInv_unmarkNolLR s hJ⟩
    · exact ⟨bandUnmarkNolRL s, unmarkNol_mkBand_RL R s hR, bandCacedInv_unmarkNolRL s hJ⟩
    · exact ⟨bandUnmarkNolRR s, unmarkNol_mkBand_RR R s hR, bandCacedInv_unmarkNolRR s hJ⟩

theorem cacedSumOK_mkBand {R : Nat} {s : BandState} (hJ : bandCacedInv s) :
    cacedSumOK (mkBand R s) := by
  unfold bandCacedInv at hJ
  simp only [mkBand, cacedSumOK, rootCaced]
  refine ⟨by omega, ⟨by omega, trivial, trivial⟩, by omega, trivial, trivial⟩

/-! ## Claims C1, C2 -/

/-- C1: the claim asserts that every state reachable from a freshly built
band tree by the four mutators satisfies, at every node,
`n_cac_done ≤ n_valid`, `n_nol ≤ n_valid` and
`n_cac_done + n_nol ≤ n_valid`.  This is false: from the fresh 5290 band
tree, mark-NOL(5260) followed by mark-CAC-done(5260) is reachable (the
CAC-done walk never consults `n_nol`), and it leaves the 5260 leaf with
`n_cac_done = 1`, `n_nol = 1`, `n_valid = 1`, violating the combined
bound. -/
theorem C1_counterexample :
    Reach 5290 (dfs_mark_tree_node_as_cac_done_for_freq
      (dfs_mark_tree_node_as_nol_for_freq (dfs_create_precac_tree_for_freq 5290) 5260) 5260) ∧
    ¬ AllNodes nodeBoundsFull
      (dfs_mark_tree_node_as_cac_done_for_freq
        (dfs_mark_tree_node_as_nol_for_freq (dfs_create_precac_tree_for_freq 5290) 5260) 5260) :=
  ⟨Reach.markCac 5260 (Reach.markNol 5260 Reach.init), by decide⟩

/-- C1 (amended): every state reachable from a freshly built band tree by
any sequence of mark-CAC-done, unmark-CAC-done, mark-NOL and unmark-NOL at
arbitrary frequencies satisfies `0 ≤ n_cac_done ≤ n_valid` and
`0 ≤ n_nol ≤ n_valid` at every node; the combined bound
`n_cac_done + n_nol ≤ n_valid` of the original claim does not hold
(see the counterexample). -/
theorem C1_amended {R : Nat} {t : PrecacTree} (h : Reach R t) : AllNodes nodeBounds t :=
  allNodes_mono (fun v hv => ⟨hv.1, hv.2.1⟩) t (reach_nodeInv h)

theorem C1_witness :
    Reach 5290 (dfs_mark_tree_node_as_nol_for_freq
      (dfs_create_precac_tree_for_freq 5290) 5260) ∧
    AllNodes nodeBounds (dfs_mark_tree_node_as_nol_for_freq
      (dfs_create_precac_tree_for_freq 5290) 5260) :=
  ⟨Reach.markNol 5260 Reach.init, C1_amended (Reach.markNol 5260 Reach.init)⟩

/-- C2: the claim asserts that both per-counter sum rules
(`n_cac_done` and `n_nol`) hold at every non-leaf node of every reachable
state.  This is false for `n_nol`: two consecutive mark-NOL(5260) calls on
the fresh 5290 band tree are reachable, and the second one increments the
root and 40 MHz counters but early-returns at the saturated 5260 leaf,
leaving the 5270 node with `n_nol = 2` while its children sum to 1. -/
theorem C2_counterexample :
    ReachLeaf 5290 (dfs_mark_tree_node_as_nol_for_freq
      (dfs_mark_tree_node_as_nol_for_freq (dfs_create_precac_tree_for_freq 5290) 5260) 5260) ∧
    ¬ nolSumOK (dfs_mark_tree_node_as_nol_for_freq
      (dfs_mark_tree_node_as_nol_for_freq (dfs_create_precac_tree_for_freq 5290) 5260) 5260) :=
  ⟨ReachLeaf.markNol (by decide) (ReachLeaf.markNol (by decide) ReachLeaf.init), by decide⟩

/-- C2 (amended): for every band tree built by forest initialization
(80 MHz center `R ≥ 31`) and every state reachable from it by the exported
mutators mark-CAC-done, mark-NOL and unmark-NOL at the band's own 20 MHz
subchannel frequencies (unmark-CAC-done runs only as mark-NOL's internal
call), every non-leaf node N satisfies
`N.n_cac_done = N.left.n_cac_done + N.right.n_cac_done`.  The analogous
`n_nol` sum rule of the original claim is false (see the counterexample:
mark-NOL's early return on a saturated counter leaves ancestors
over-incremented), and the `n_cac_done` sum rule itself would fail under
standalone unmark-CAC-done calls. -/
theorem C2_amended {R : Nat} {t : PrecacTree} (hR : 31 ≤ R) (h : ReachLeaf R t) :
    cacedSumOK t := by
  obtain ⟨s, rfl, hJ⟩ := reachLeaf_band hR h
  exact cacedSumOK_mkBand hJ

theorem C2_witness :
    (31 ≤ 5290 ∧ ReachLeaf 5290 (dfs_mark_tree_node_as_nol_for_freq
      (dfs_create_precac_tree_for_freq 5290) 5260)) ∧
    cacedSumOK (dfs_mark_tree_node_as_nol_for_freq
      (dfs_create_precac_tree_for_freq 5290) 5260) :=
  ⟨⟨by decide, ReachLeaf.markNol (by decide) ReachLeaf.init⟩,
    C2_amended (by decide) (ReachLeaf.markNol (by decide) ReachLeaf.init)⟩

/-! ## Claim C5 (idempotence of mark-CAC-done) -/

theorem bandMarkCacLL_idem (s : BandState) :
    bandMarkCacLL (bandMarkCacLL s) = bandMarkCacLL s := by
  unfold bandMarkCacLL
  split_ifs <;> first | rfl | (exfalso; (try simp at *); all_goals omega)

theorem bandMarkCacLR_idem (s : BandState) :
    bandMarkCacLR (bandMarkCacLR s) = bandMarkCacLR s := by
  unfold bandMarkCacLR
  split_ifs <;> first | rfl | (exfalso; (try simp at *); all_goals omega)

theorem bandMarkCacRL_idem (s : BandState) :
    bandMarkCacRL (bandMarkCacRL s) = bandMarkCacRL s := by
  unfold bandMarkCacRL
  split_ifs <;> first | rfl | (exfalso; (try simp at *); all_goals omega)

theorem bandMarkCacRR_idem (s : BandState) :
    bandMarkCacRR (bandMarkCacRR s) = bandMarkCacRR s := by
  unfold bandMarkCacRR
  split_ifs <;> first | rfl | (exfalso; (try simp at *); all_goals omega)

/-- C5: the claim asserts idempotence of mark-CAC-done for every 20 MHz
frequency.  This is false for a 20 MHz channel center outside the band
tree: 5340 (channel 68) is within no node of the 5290 tree, so the
ancestor-path check never finds it and each call re-increments the root
and right-subtree counters along the descent spine. -/
theorem C5_counterexample :
    ¬ (dfs_mark_tree_node_as_cac_done_for_freq
        (dfs_mark_tree_node_as_cac_done_for_freq
          (dfs_create_precac_tree_for_freq 5290) 5340) 5340 =
       dfs_mark_tree_node_as_cac_done_for_freq
        (dfs_create_precac_tree_for_freq 5290) 5340) := by decide

/-- C5 (amended): for every band tree state (arbitrary counters) and every
20 MHz subchannel center frequency f of the band itself, applying
mark-CAC-done(f) twice produces the same tree as applying it once: the
second call finds the leaf already marked via the ancestor-path check and
returns without mutating any counter.  For 20 MHz frequencies outside the
band the property fails (see the counterexample). -/
theorem C5_amended {R : Nat} (s : BandState) {f : Nat} (hR : 31 ≤ R)
    (hf : f ∈ leafFreqs R) :
    dfs_mark_tree_node_as_cac_done_for_freq
      (dfs_mark_tree_node_as_cac_done_for_freq (mkBand R s) f) f =
    dfs_mark_tree_node_as_cac_done_for_freq (mkBand R s) f := by
  simp only [leafFreqs, List.mem_cons, List.mem_singleton, List.not_mem_nil, or_false] at hf
  rcases hf with rfl | rfl | rfl | rfl
  · rw [markCac_mkBand_LL R s hR, markCac_mkBand_LL R _ hR, bandMarkCacLL_idem]
  · rw [markCac_mkBand_LR R s hR, markCac_mkBand_LR R _ hR, bandMarkCacLR_idem]
  · rw [markCac_mkBand_RL R s hR, markCac_mkBand_RL R _ hR, bandMarkCacRL_idem]
  · rw [markCac_mkBand_RR R s hR, markCac_mkBand_RR R _ hR, bandMarkCacRR_idem]

theorem C5_witness :
    (31 ≤ 5290 ∧ 5260 ∈ leafFreqs 5290) ∧
    dfs_mark_tree_node_as_cac_done_for_freq
      (dfs_mark_tree_node_as_cac_done_for_freq (mkBand 5290 bandZero) 5260) 5260 =
    dfs_mark_tree_node_as_cac_done_for_freq (mkBand 5290 bandZero) 5260 :=
  ⟨⟨by decide, by decide⟩, C5_amended (R := 5290) bandZero (by decide) (by decide)⟩

/-! ## Claim C3 (NOL supersedes CAC) -/

/-- C3: the claim asserts that on any band tree state, mark-CAC-done(f)
followed by mark-NOL(f) leaves is-CAC-done(f) false and increments `n_nol`
on every node of the descent path.  This is false on reachable states: from
the fresh 5290 tree, mark-NOL(5260), mark-NOL(5280), mark-CAC-done(5260)
saturate the 5270 node's `n_nol`; the subsequent pair
mark-CAC-done(5260); mark-NOL(5260) then early-returns at 5270 before
reaching the leaf, so the leaf is neither unmarked (is-CAC-done(5260)
stays true) nor is its `n_nol` incremented. -/
theorem C3_counterexample :
    dfs_find_cac_status_for_chan_for_freq
      (dfs_mark_tree_node_as_nol_for_freq
        (dfs_mark_tree_node_as_cac_done_for_freq
          (dfs_mark_tree_node_as_cac_done_for_freq
            (dfs_mark_tree_node_as_nol_for_freq
              (dfs_mark_tree_node_as_nol_for_freq
                (dfs_create_precac_tree_for_freq 5290) 5260) 5280) 5260) 5260) 5260) 5260
      = true ∧
    ¬ ((descentPath
          (dfs_mark_tree_node_as_nol_for_freq
            (dfs_mark_tree_node_as_cac_done_for_freq
              (dfs_mark_tree_node_as_cac_done_for_freq
                (dfs_mark_tree_node_as_nol_for_freq
                  (dfs_mark_tree_node_as_nol_for_freq
                    (dfs_create_precac_tree_for_freq 5290) 5260) 5280) 5260) 5260) 5260)
          5260).map (fun v => v.n_nol_subchs) =
        (descentPath
          (dfs_mark_tree_node_as_cac_done_for_freq
            (dfs_mark_tree_node_as_nol_for_freq
              (dfs_mark_tree_node_as_nol_for_freq
                (dfs_create_precac_tree_for_freq 5290) 5260) 5280) 5260)
          5260).map (fun v => v.n_nol_subchs + 1)) := by
  have e0 : dfs_create_precac_tree_for_freq 5290 =
      mkBand 5290 ⟨0, 0, 0, 0, 0, 0, 0, 0, 0, 0, 0, 0, 0, 0⟩ := by decide
  have e1 : dfs_mark_tree_node_as_nol_for_freq
      (mkBand 5290 ⟨0, 0, 0, 0, 0, 0, 0, 0, 0, 0, 0, 0, 0, 0⟩) 5260 =
      mkBand 5290 ⟨0, 0, 0, 0, 0, 0, 0, 1, 1, 0, 1, 0, 0, 0⟩ := by decide
  have e2 : dfs_mark_tree_node_as_nol_for_freq
      (mkBand 5290 ⟨0, 0, 0, 0, 0, 0, 0, 1, 1, 0, 1, 0, 0, 0⟩) 5280 =
      mkBand 5290 ⟨0, 0, 0, 0, 0, 0, 0, 2, 2, 0, 1, 1, 0, 0⟩ := by decide
  have e3 : dfs_mark_tree_node_as_cac_done_for_freq
      (mkBand 5290 ⟨0, 0, 0, 0, 0, 0, 0, 2, 2, 0, 1, 1, 0, 0⟩) 5260 =
      mkBand 5290 ⟨1, 1, 0, 1, 0, 0, 0, 2, 2, 0, 1, 1, 0, 0⟩ := by decide
  have e4 : dfs_mark_tree_node_as_cac_done_for_freq
      (mkBand 5290 ⟨1, 1, 0, 1, 0, 0, 0, 2, 2, 0, 1, 1, 0, 0⟩) 5260 =
      mkBand 5290 ⟨1, 1, 0, 1, 0, 0, 0, 2, 2, 0, 1, 1, 0, 0⟩ := by decide
  have e5 : dfs_mark_tree_node_as_nol_for_freq
      (mkBand 5290 ⟨1, 1, 0, 1, 0, 0, 0, 2, 2, 0, 1, 1, 0, 0⟩) 5260 =
      mkBand 5290 ⟨1, 1, 0, 1, 0, 0, 0, 3, 2, 0, 1, 1, 0, 0⟩ := by decide
  rw [e0, e1, e2, e3, e4, e5]
  constructor
  · decide
  · decide

set_option maxHeartbeats 1000000 in
/-- C3 (amended): for every band tree state whose counters satisfy the
per-node bounds and every 20 MHz subchannel center f of the band such that
no node on the descent path to f has a saturated `n_nol` counter,
mark-CAC-done(f) followed by mark-NOL(f) leaves is-CAC-done(f) equal to
false and increments `n_nol` by exactly one on every node of the descent
path to f. -/
theorem C3_amended {R : Nat} (s : BandState) {f : Nat} (hR : 31 ≤ R)
    (hf : f ∈ leafFreqs R)
    (hB : AllNodes nodeBounds (mkBand R s))
    (hN : ∀ v ∈ descentPath (mkBand R s) f, v.n_nol_subchs < v.n_valid_subchs) :
    dfs_find_cac_status_for_chan_for_freq
      (dfs_mark_tree_node_as_nol_for_freq
        (dfs_mark_tree_node_as_cac_done_for_freq (mkBand R s) f) f) f = false ∧
    (descentPath (dfs_mark_tree_node_as_nol_for_freq
        (dfs_mark_tree_node_as_cac_done_for_freq (mkBand R s) f) f) f).map
        (fun v => v.n_nol_subchs) =
      (descentPath (mkBand R s) f).map (fun v => v.n_nol_subchs + 1) := by
  simp only [AllNodes, nodeBounds, mkBand] at hB
  simp only [leafFreqs, List.mem_cons, List.mem_singleton, List.not_mem_nil, or_false] at hf
  rcases hf with rfl | rfl | rfl | rfl
  · have f1 : R - 30 < R := by omega
    have f2 : R - 30 < R - 20 := by omega
    have g1 : ¬ (R = R - 30) := by omega
    have g2 : ¬ (R - 20 = R - 30) := by omega
    rw [markCac_mkBand_LL R s hR, markNol_mkBand_LL R _ hR]
    simp only [descentPath, mkBand, f1, f2, g1, g2, if_true, if_false, ite_true, ite_false,
      List.forall_mem_cons, List.forall_mem_ne, List.not_mem_nil] at hN
    obtain ⟨hN1, hN2, hN3, _⟩ := hN
    simp only [dfs_find_cac_status_for_chan_for_freq, findCacStatusLoop, descentPath, mkBand,
      N_SUBCHANS_FOR_80BW, f1, f2, g1, g2, if_true, if_false, ite_true, ite_false,
      List.map_cons, List.map_nil]
    norm_num
    unfold bandMarkNolLL bandMarkCacLL
    split_ifs <;> ((try dsimp only at *); all_goals omega)
  · have f1 : R - 10 < R := by omega
    have f2 : ¬ (R - 10 < R - 20) := by omega
    have g1 : ¬ (R = R - 10) := by omega
    have g2 : ¬ (R - 20 = R - 10) := by omega
    rw [markCac_mkBand_LR R s hR, markNol_mkBand_LR R _ hR]
    simp only [descentPath, mkBand, f1, f2, g1, g2, if_true, if_false, ite_true, ite_false,
      List.forall_mem_cons, List.forall_mem_ne, List.not_mem_nil] at hN
    obtain ⟨hN1, hN2, hN3, _⟩ := hN
    simp only [dfs_find_cac_status_for_chan_for_freq, findCacStatusLoop, descentPath, mkBand,
      N_SUBCHANS_FOR_80BW, f1, f2, g1, g2, if_true, if_false, ite_true, ite_false,
      List.map_cons, List.map_nil]
    norm_num
    unfold bandMarkNolLR bandMarkCacLR
    split_ifs <;> ((try dsimp only at *); all_goals omega)
  · have f1 : ¬ (R + 10 < R) := by omega
    have f2 : R + 10 < R + 20 := by omega
    have g1 : ¬ (R = R + 10) := by omega
    have g2 : ¬ (R + 20 = R + 10) := by omega
    rw [markCac_mkBand_RL R s hR, markNol_mkBand_RL R _ hR]
    simp only [descentPath, mkBand, f1, f2, g1, g2, if_true, if_false, ite_true, ite_false,
      List.forall_mem_cons, List.forall_mem_ne, List.not_mem_nil] at hN
    obtain ⟨hN1, hN2, hN3, _⟩ := hN
    simp only [dfs_find_cac_status_for_chan_for_freq, findCacStatusLoop, descentPath, mkBand,
      N_SUBCHANS_FOR_80BW, f1, f2, g1, g2, if_true, if_false, ite_true, ite_false,
      List.map_cons, List.map_nil]
    norm_num
    unfold bandMarkNolRL bandMarkCacRL
    split_ifs <;> ((try dsimp only at *); all_goals omega)
  · have f1 : ¬ (R + 30 < R) := by omega
    have f2 : ¬ (R + 30 < R + 20) := by omega
    have g1 : ¬ (R = R + 30) := by omega
    have g2 : ¬ (R + 20 = R + 30) := by omega
    rw [markCac_mkBand_RR R s hR, markNol_mkBand_RR R _ hR]
    simp only [descentPath, mkBand, f1, f2, g1, g2, if_true, if_false, ite_true, ite_false,
      List.forall_mem_cons, List.forall_mem_ne, List.not_mem_nil] at hN
    obtain ⟨hN1, hN2, hN3, _⟩ := hN
    simp only [dfs_find_cac_status_for_chan_for_freq, findCacStatusLoop, descentPath, mkBand,
      N_SUBCHANS_FOR_80BW, f1, f2, g1, g2, if_true, if_false, ite_true, ite_false,
      List.map_cons, List.map_nil]
    norm_num
    unfold bandMarkNolRR bandMarkCacRR
    split_ifs <;> ((try dsimp only at *); all_goals omega)

theorem C3_witness :
    (31 ≤ 5290 ∧ 5260 ∈ leafFreqs 5290 ∧ AllNodes nodeBounds (mkBand 5290 bandZero) ∧
      ∀ v ∈ descentPath (mkBand 5290 bandZero) 5260,
        v.n_nol_subchs < v.n_valid_subchs) ∧
    (dfs_find_cac_status_for_chan_for_freq
      (dfs_mark_tree_node_as_nol_for_freq
        (dfs_mark_tree_node_as_cac_done_for_freq (mkBand 5290 bandZero) 5260) 5260) 5260
        = false ∧
     (descentPath (dfs_mark_tree_node_as_nol_for_freq
        (dfs_mark_tree_node_as_cac_done_for_freq (mkBand 5290 bandZero) 5260) 5260) 5260).map
        (fun v => v.n_nol_subchs) =
      (descentPath (mkBand 5290 bandZero) 5260).map (fun v => v.n_nol_subchs + 1)) :=
  ⟨⟨by decide, by decide, by decide, by decide⟩,
    C3_amended (R := 5290) bandZero (by decide) (by decide) (by decide) (by decide)⟩

/-! ## Claim C4 (selection vs the serving channel) -/

theorem subtreeOf_allNodes {P : precac_tree_node → Prop} {s t : PrecacTree}
    (hs : SubtreeOf s t) (h : AllNodes P t) : AllNodes P s := by
  induction hs with
  | refl => exact h
  | left v l r _ ih => exact ih h.2.1
  | right v l r _ ih => exact ih h.2.2

theorem findIeeeChLoop_mem (cc : dfs_channel) :
    ∀ (t : PrecacTree) (bw : Nat), findIeeeChLoop cc t bw ≠ 0 →
      ∃ v l r, SubtreeOf (.node v l r) t ∧ v.bandwidth = bw ∧
        v.ch_freq = findIeeeChLoop cc t bw ∧
        dfs_is_cac_needed_for_bst_node_for_freq cc (.node v l r) bw = true
  | .nil, bw, h => absurd rfl h
  | .node v l r, bw, h => by
    unfold findIeeeChLoop at h ⊢
    by_cases hbw : v.bandwidth = bw
    · simp only [hbw, if_true, ite_true] at h ⊢
      by_cases hneed : dfs_is_cac_needed_for_bst_node_for_freq cc (.node v l r) bw = true
      · refine ⟨v, l, r, SubtreeOf.refl _, hbw, ?_, hneed⟩
        simp [hneed]
      · simp only [Bool.not_eq_true] at hneed
        simp [hneed] at h
    · simp only [hbw, if_false, ite_false] at h ⊢
      by_cases hl : dfs_is_cac_needed_for_bst_node_for_freq cc l bw = false
      · simp only [hl, if_true, ite_true] at h ⊢
        obtain ⟨w, wl, wr, hsub, h1, h2, h3⟩ := findIeeeChLoop_mem cc r bw h
        exact ⟨w, wl, wr, SubtreeOf.right v l r hsub, h1, h2, h3⟩
      · simp only [hl, if_false, ite_false] at h ⊢
        obtain ⟨w, wl, wr, hsub, h1, h2, h3⟩ := findIeeeChLoop_mem cc l bw h
        exact ⟨w, wl, wr, SubtreeOf.left v l r hsub, h1, h2, h3⟩

/-- At a node whose center is the serving primary center (and whose
bandwidth matches the serving width class), `dfs_is_cac_needed` always
answers false: either the center still requires preCAC there, and then the
whole node is excluded, or it is fully CAC done or in NOL. -/
theorem isCacNeeded_at_serving_center (cc : dfs_channel) (v : precac_tree_node)
    (l r : PrecacTree)
    (hw : cc.width = .CH_WIDTH_20MHZ ∨ cc.width = .CH_WIDTH_40MHZ ∨
          cc.width = .CH_WIDTH_80MHZ)
    (hsec : cc.dfs_ch_mhz_freq_seg2 = 0)
    (hpri : 41 ≤ cc.dfs_ch_mhz_freq_seg1)
    (hcenter : v.ch_freq = cc.dfs_ch_mhz_freq_seg1)
    (hbw : v.bandwidth = chwidthVal cc.width)
    (hvalid : v.n_valid_subchs = N_SUBCHS_FOR_BANDWIDTH v.bandwidth)
    (hnol : v.n_nol_subchs ≤ v.n_valid_subchs)
    (hcac : v.n_caced_subchs ≤ v.n_valid_subchs) :
    dfs_is_cac_needed_for_bst_node_for_freq cc (.node v l r) v.bandwidth = false := by
  have hsecfar : ¬ IS_WITHIN_RANGE cc.dfs_ch_mhz_freq_seg2 v.ch_freq (v.bandwidth / 2) := by
    unfold IS_WITHIN_RANGE
    rcases hw with hw | hw | hw <;>
      simp only [hbw, chwidthVal, hw, hsec, hcenter, DFS_CHWIDTH_20_VAL,
        DFS_CHWIDTH_40_VAL, DFS_CHWIDTH_80_VAL] <;> simp <;> omega
  have hpriin : IS_WITHIN_RANGE cc.dfs_ch_mhz_freq_seg1 v.ch_freq (v.bandwidth / 2) := by
    unfold IS_WITHIN_RANGE
    constructor <;> simp [hcenter] <;> omega
  have hreq : dfs_is_pcac_required_for_freq (.node v l r) cc.dfs_ch_mhz_freq_seg1 =
      decide (¬ (v.n_caced_subchs = N_SUBCHS_FOR_BANDWIDTH v.bandwidth ∨
                 v.n_nol_subchs ≠ 0)) := by
    unfold dfs_is_pcac_required_for_freq
    simp [hcenter]
  have hnot160 : ¬ cc.width = phy_ch_width.CH_WIDTH_160MHZ := by
    rcases hw with hw | hw | hw <;> simp [hw]
  have hspan : N_SUBCHS_FOR_BANDWIDTH (chwidthVal cc.width) = v.n_valid_subchs := by
    rw [hvalid, hbw]
  have hvpos : 1 ≤ v.n_valid_subchs := by
    rw [hvalid, hbw]
    rcases hw with hw | hw | hw <;>
      simp [chwidthVal, hw, N_SUBCHS_FOR_BANDWIDTH, MIN_DFS_SUBCHAN_BW,
        DFS_CHWIDTH_20_VAL, DFS_CHWIDTH_40_VAL, DFS_CHWIDTH_80_VAL]
  have hchain : (if cc.width = phy_ch_width.CH_WIDTH_20MHZ then DFS_CHWIDTH_20_VAL
      else if cc.width = phy_ch_width.CH_WIDTH_40MHZ then DFS_CHWIDTH_40_VAL
      else DFS_CHWIDTH_80_VAL) = chwidthVal cc.width := rfl
  unfold dfs_is_cac_needed_for_bst_node_for_freq
  unfold dfs_get_num_cur_subchans_in_node_freq
  simp only [hnot160, if_false, ite_false, hsecfar, false_and, and_false,
    hpriin, true_and, hchain, hspan]
  by_cases hr : v.n_caced_subchs = N_SUBCHS_FOR_BANDWIDTH v.bandwidth ∨ v.n_nol_subchs ≠ 0
  · -- not required: nothing excluded; the node is fully done or has NOL
    have hreqf : dfs_is_pcac_required_for_freq (.node v l r)
        cc.dfs_ch_mhz_freq_seg1 = false := by
      rw [hreq]; simp [hr]
    simp only [hreqf, Bool.false_eq_true, if_false, ite_false, Nat.add_zero]
    split_ifs with hcond
    · rfl
    · exfalso
      omega
  · -- required: the exclusion count covers the whole node
    have hreqt : dfs_is_pcac_required_for_freq (.node v l r)
        cc.dfs_ch_mhz_freq_seg1 = true := by
      rw [hreq]; simp [hr]
    simp only [hreqt, eq_self_iff_true, if_true, ite_true, Nat.add_zero]
    push_neg at hr
    obtain ⟨hr1, hr2⟩ := hr
    split_ifs with hcond
    · rfl
    · exfalso
      omega

theorem find_tree_ne_serving (cc : dfs_channel) (t : PrecacTree) (bw : Nat)
    (hw : cc.width = .CH_WIDTH_20MHZ ∨ cc.width = .CH_WIDTH_40MHZ ∨
          cc.width = .CH_WIDTH_80MHZ)
    (hsec : cc.dfs_ch_mhz_freq_seg2 = 0)
    (hpri : 41 ≤ cc.dfs_ch_mhz_freq_seg1)
    (hT : AllNodes (servingCenterOK cc) t) :
    dfs_find_ieee_ch_from_precac_tree_for_freq cc t bw ≠ cc.dfs_ch_mhz_freq_seg1 := by
  unfold dfs_find_ieee_ch_from_precac_tree_for_freq
  split
  · omega
  · intro heq
    have hne : findIeeeChLoop cc t bw ≠ 0 := by omega
    obtain ⟨v, l, r, hsub, hbw, hfreq, hneed⟩ := findIeeeChLoop_mem cc t bw hne
    have hcenter : v.ch_freq = cc.dfs_ch_mhz_freq_seg1 := by rw [hfreq, heq]
    have hv := (subtreeOf_allNodes hsub hT).1 hcenter
    have := isCacNeeded_at_serving_center cc v l r hw hsec hpri hcenter
      hv.1 hv.2.1 hv.2.2.1 hv.2.2.2
    rw [hbw] at this
    rw [this] at hneed
    exact Bool.false_ne_true hneed

/-- C4: the claim asserts that the selected candidate's span never
intersects the currently-operating subchannels.  This is false: serving a
20 MHz channel at 5260 whose leaf is already CAC done (so it is no longer
counted as excluded), a 40 MHz request returns 5270, whose 40 MHz span
contains the serving subchannel 5260. -/
theorem C4_counterexample :
    dfs_get_ieeechan_for_precac_for_freq
      { dfs_ch_mhz_freq_seg1 := 5260, dfs_ch_mhz_freq_seg2 := 0,
        width := .CH_WIDTH_20MHZ }
      [{ vht80_ch_freq := 5290,
         tree_root := dfs_mark_tree_node_as_cac_done_for_freq
           (dfs_create_precac_tree_for_freq 5290) 5260 }] 40 = 5270 ∧
    IS_WITHIN_RANGE 5260 5270 20 := by
  have e0 : dfs_create_precac_tree_for_freq 5290 =
      mkBand 5290 ⟨0, 0, 0, 0, 0, 0, 0, 0, 0, 0, 0, 0, 0, 0⟩ := by decide
  have e1 : dfs_mark_tree_node_as_cac_done_for_freq
      (mkBand 5290 ⟨0, 0, 0, 0, 0, 0, 0, 0, 0, 0, 0, 0, 0, 0⟩) 5260 =
      mkBand 5290 ⟨1, 1, 0, 1, 0, 0, 0, 0, 0, 0, 0, 0, 0, 0⟩ := by decide
  rw [e0, e1]
  constructor
  · decide
  · decide

/-- C4 (amended): the selection never returns the serving primary center
itself.  Precisely: for every forest state, requested bandwidth and
operating channel of width 20, 40 or 80 (secondary center 0, primary
center at least 41 MHz) such that every tree node carrying the serving
primary center as its center has the serving width class, the standard
`n_valid` and bounded counters (which holds for every reachable state of
regulatory-aligned band trees), the candidate returned by
`dfs_get_ieeechan_for_precac_for_freq` differs from the serving primary
center.  The stronger span-disjointness of the original claim is false
(see the counterexample). -/
theorem C4_amended (cc : dfs_channel) (entries : List dfs_precac_entry) (bw : Nat)
    (hw : cc.width = .CH_WIDTH_20MHZ ∨ cc.width = .CH_WIDTH_40MHZ ∨
          cc.width = .CH_WIDTH_80MHZ)
    (hsec : cc.dfs_ch_mhz_freq_seg2 = 0)
    (hpri : 41 ≤ cc.dfs_ch_mhz_freq_seg1)
    (hT : ∀ e ∈ entries, AllNodes (servingCenterOK cc) e.tree_root) :
    dfs_get_ieeechan_for_precac_for_freq cc entries bw ≠ cc.dfs_ch_mhz_freq_seg1 := by
  induction entries with
  | nil =>
    unfold dfs_get_ieeechan_for_precac_for_freq
    omega
  | cons e rest ih =>
    unfold dfs_get_ieeechan_for_precac_for_freq
    have he := hT e (List.mem_cons_self e rest)
    by_cases hc : dfs_find_ieee_ch_from_precac_tree_for_freq cc e.tree_root bw = 0
    · simp only [hc, ne_eq, not_true, if_false, ite_false]
      exact ih (fun x hx => hT x (List.mem_cons_of_mem e hx))
    · simp only [ne_eq, hc, not_false_iff, if_true, ite_true]
      exact find_tree_ne_serving cc e.tree_root bw hw hsec hpri he

theorem C4_witness :
    ((({ dfs_ch_mhz_freq_seg1 := 5260, dfs_ch_mhz_freq_seg2 := 0,
         width := .CH_WIDTH_20MHZ } : dfs_channel).width = phy_ch_width.CH_WIDTH_20MHZ ∨
      ({ dfs_ch_mhz_freq_seg1 := 5260, dfs_ch_mhz_freq_seg2 := 0,
         width := .CH_WIDTH_20MHZ } : dfs_channel).width = phy_ch_width.CH_WIDTH_40MHZ ∨
      ({ dfs_ch_mhz_freq_seg1 := 5260, dfs_ch_mhz_freq_seg2 := 0,
         width := .CH_WIDTH_20MHZ } : dfs_channel).width = phy_ch_width.CH_WIDTH_80MHZ) ∧
     (∀ e ∈ [{ vht80_ch_freq := 5290,
               tree_root := dfs_create_precac_tree_for_freq 5290 : dfs_precac_entry }],
        AllNodes (servingCenterOK
          { dfs_ch_mhz_freq_seg1 := 5260, dfs_ch_mhz_freq_seg2 := 0,
            width := .CH_WIDTH_20MHZ }) e.tree_root)) ∧
    dfs_get_ieeechan_for_precac_for_freq
      { dfs_ch_mhz_freq_seg1 := 5260, dfs_ch_mhz_freq_seg2 := 0,
        width := .CH_WIDTH_20MHZ }
      [{ vht80_ch_freq := 5290, tree_root := dfs_create_precac_tree_for_freq 5290 }] 40
      ≠ 5260 :=
  ⟨⟨by decide, by decide⟩,
    C4_amended _ _ 40 (by decide) (by decide) (by decide) (by decide)⟩

/-! ## Claim C6 (the is-preCAC-done query) -/

theorem findCacStatusLoop_eq_spec : ∀ (t : PrecacTree) (f n : Nat),
    lvlConsistent t n → findCacStatusLoop t f n = specPathCacDone t f
  | .nil, _, _, _ => rfl
  | .node v l r, f, n, h => by
    obtain ⟨h1, h2, h3⟩ := h
    unfold findCacStatusLoop specPathCacDone
    by_cases hc : v.ch_freq = f
    · rw [if_pos hc, if_pos hc, h1]
    · rw [if_neg hc, if_neg hc]
      by_cases hlt : f < v.ch_freq
      · rw [if_pos hlt, if_pos hlt]
        exact findCacStatusLoop_eq_spec l f (n / 2) h2
      · rw [if_neg hlt, if_neg hlt]
        exact findCacStatusLoop_eq_spec r f (n / 2) h3

theorem notWithin_of_sep {f ca cb : Nat}
    (ha : IS_WITHIN_RANGE f ca VHT80_FREQ_OFFSET)
    (hsep : ca + 61 ≤ cb ∨ cb + 61 ≤ ca) :
    ¬ IS_WITHIN_RANGE f cb VHT80_FREQ_OFFSET := by
  unfold IS_WITHIN_RANGE at *
  simp only [VHT80_FREQ_OFFSET] at *
  omega

/-- C6: the forest-level is-preCAC-done query answers exactly the spec's
description — some band tree whose VHT80 center is within 30 MHz of the
frequency contains a node with that center whose CAC counter equals its
subchannel span.  Hypotheses: the trees' stored `n_caced` level counters
are consistent with the descent counter that starts at 4 and halves per
level (true of trees built by `dfs_create_precac_tree_for_freq`), and the
VHT80 centers of distinct entries are at least 61 MHz apart (true of
distinct regulatory VHT80 channels, 80 MHz apart), so that the `break`
after the first within-range entry loses nothing. -/
theorem C6_theorem (entries : List dfs_precac_entry) (f : Nat)
    (hsep : List.Pairwise (fun a b => a.vht80_ch_freq + 61 ≤ b.vht80_ch_freq ∨
        b.vht80_ch_freq + 61 ≤ a.vht80_ch_freq) entries)
    (hlvl : ∀ e ∈ entries, lvlConsistent e.tree_root N_SUBCHANS_FOR_80BW) :
    dfs_is_precac_done_on_ht20_40_80_chan_for_freq entries f = true ↔
      specIsCacDone entries f := by
  induction entries with
  | nil =>
    unfold dfs_is_precac_done_on_ht20_40_80_chan_for_freq
    simp [specIsCacDone]
  | cons e rest ih =>
    obtain ⟨hse, hsrest⟩ := List.pairwise_cons.mp hsep
    have hle := hlvl e (List.mem_cons_self e rest)
    unfold dfs_is_precac_done_on_ht20_40_80_chan_for_freq
    by_cases hin : IS_WITHIN_RANGE f e.vht80_ch_freq VHT80_FREQ_OFFSET
    · rw [if_pos hin]
      unfold dfs_find_cac_status_for_chan_for_freq
      rw [findCacStatusLoop_eq_spec e.tree_root f N_SUBCHANS_FOR_80BW hle]
      constructor
      · intro h
        exact ⟨e, List.mem_cons_self e rest, hin, h⟩
      · rintro ⟨x, hx, hxin, hxs⟩
        rcases List.mem_cons.mp hx with hx | hx
        · rw [hx] at hxs
          exact hxs
        · exact absurd hxin (notWithin_of_sep hin (hse x hx))
    · rw [if_neg hin]
      rw [ih hsrest (fun x hx => hlvl x (List.mem_cons_of_mem e hx))]
      unfold specIsCacDone
      constructor
      · rintro ⟨x, hx, hxin, hxs⟩
        exact ⟨x, List.mem_cons_of_mem e hx, hxin, hxs⟩
      · rintro ⟨x, hx, hxin, hxs⟩
        rcases List.mem_cons.mp hx with hx | hx
        · rw [hx] at hxin
          exact absurd hxin hin
        · exact ⟨x, hx, hxin, hxs⟩

theorem C6_witness :
    (List.Pairwise (fun a b => a.vht80_ch_freq + 61 ≤ b.vht80_ch_freq ∨
        b.vht80_ch_freq + 61 ≤ a.vht80_ch_freq)
      [{ vht80_ch_freq := 5290, tree_root := dfs_create_precac_tree_for_freq 5290 },
       { vht80_ch_freq := 5530,
         tree_root := dfs_create_precac_tree_for_freq 5530 : dfs_precac_entry }] ∧
     (∀ e ∈ [{ vht80_ch_freq := 5290, tree_root := dfs_create_precac_tree_for_freq 5290 },
             { vht80_ch_freq := 5530,
               tree_root := dfs_create_precac_tree_for_freq 5530 : dfs_precac_entry }],
        lvlConsistent e.tree_root N_SUBCHANS_FOR_80BW)) ∧
    (dfs_is_precac_done_on_ht20_40_80_chan_for_freq
      [{ vht80_ch_freq := 5290, tree_root := dfs_create_precac_tree_for_freq 5290 },
       { vht80_ch_freq := 5530, tree_root := dfs_create_precac_tree_for_freq 5530 }]
      5260 = true ↔
     specIsCacDone
      [{ vht80_ch_freq := 5290, tree_root := dfs_create_precac_tree_for_freq 5290 },
       { vht80_ch_freq := 5530, tree_root := dfs_create_precac_tree_for_freq 5530 }]
      5260) :=
  ⟨⟨by decide, by decide⟩, C6_theorem _ 5260 (by decide) (by decide)⟩

/-! ## Claim C7 (setting the intermediate channel) -/

/-- C7: the claim asserts that when the requested frequency resolves to a
DFS channel the call returns `-EINVAL` and leaves the stored intermediate
channel unchanged.  The error status is right but the stored value is not
kept: the code overwrites it with 0.  Here the previous stored value is
5180 and the call leaves 0, not 5180. -/
theorem C7_counterexample :
    dfs_set_precac_intermediate_chan
      (fun _ => some { dfs_ch_freq := 5260, is_dfs := true }) 5180 5260 =
      (-EINVAL, 0) ∧
    (dfs_set_precac_intermediate_chan
      (fun _ => some { dfs_ch_freq := 5260, is_dfs := true }) 5180 5260).2 ≠ 5180 := by
  constructor
  · rfl
  · decide

/-- C7 (amended): when the requested frequency resolves to a DFS channel,
`dfs_set_precac_intermediate_chan` returns `-EINVAL` and overwrites the
stored intermediate channel with 0 (it does not keep the previous value). -/
theorem C7_amended (find_dot11_chan : Nat → Option found_chan) (inter freq : Nat)
    (chan : found_chan) (hfind : find_dot11_chan freq = some chan)
    (hdfs : chan.is_dfs = true) :
    dfs_set_precac_intermediate_chan find_dot11_chan inter freq = (-EINVAL, 0) := by
  unfold dfs_set_precac_intermediate_chan
  rw [hfind]
  simp [hdfs]

theorem C7_witness :
    ((fun _ : Nat => some { dfs_ch_freq := 5260, is_dfs := true : found_chan }) 5260 =
       some { dfs_ch_freq := 5260, is_dfs := true : found_chan } ∧
     ({ dfs_ch_freq := 5260, is_dfs := true : found_chan }).is_dfs = true) ∧
    dfs_set_precac_intermediate_chan
      (fun _ => some { dfs_ch_freq := 5260, is_dfs := true }) 5180 5260 = (-EINVAL, 0) :=
  ⟨⟨rfl, rfl⟩, C7_amended (fun _ => some { dfs_ch_freq := 5260, is_dfs := true })
    5180 5260 { dfs_ch_freq := 5260, is_dfs := true } rfl rfl⟩

/-! ## Claim C8 (`n_valid` during construction) -/

/-- C8: the claim asserts that a 20 MHz leaf not advertised as DFS-valid by
regulatory is inserted with `n_valid = 0`.  The construction consults no
regulatory input at all, so the tree is the same whatever is advertised:
the 5260 leaf of the 5290 band tree (position left-left) always carries
`n_valid_subchs = 1`, never 0. -/
theorem C8_counterexample :
    nodeAt (dfs_create_precac_tree_for_freq 5290) [true, true] =
      some { ch_freq := 5260, bandwidth := 20, n_caced_subchs := 0,
             n_nol_subchs := 0, n_valid_subchs := 1 } ∧
    (1 : Nat) ≠ 0 := by
  constructor
  · decide
  · decide

/-- C8 (amended): the node initializer sets `n_valid_subchs` to
`bandwidth / 20` unconditionally, so every node of every band tree built by
`dfs_create_precac_tree_for_freq` — advertised or not — has
`n_valid_subchs = N_SUBCHS_FOR_BANDWIDTH bandwidth`. -/
theorem C8_amended (R : Nat) :
    AllNodes (fun v => v.n_valid_subchs = N_SUBCHS_FOR_BANDWIDTH v.bandwidth)
      (dfs_create_precac_tree_for_freq R) :=
  allNodes_mono (fun v hv => hv.2.2) _ (nodeInv_create R)

/-! ## Claim C9 (arming the agile preCAC timer) -/

/-- C9: the claim asserts that on every arming the OS timer is set to the
chosen minimum plus 2000 ms of slack.  With the operator override set to 0
the chosen minimum is 0 and the code arms the timer with 0, not 2000. -/
theorem C9_counterexample :
    (dfs_start_agile_precac_timer 0 .OCAC_RESET
      { precac_chan_freq := 5300, precac_chwidth := .CH_WIDTH_80MHZ,
        min_precac_timeout := 0, max_precac_timeout := 0 }).2 = 0 ∧
    (dfs_start_agile_precac_timer 0 .OCAC_RESET
      { precac_chan_freq := 5300, precac_chwidth := .CH_WIDTH_80MHZ,
        min_precac_timeout := 0, max_precac_timeout := 0 }).2 ≠
      (dfs_start_agile_precac_timer 0 .OCAC_RESET
        { precac_chan_freq := 5300, precac_chwidth := .CH_WIDTH_80MHZ,
          min_precac_timeout := 0, max_precac_timeout := 0 }).1.min_precac_timeout +
        EXTRA_TIME_IN_MS := by
  constructor
  · decide
  · decide

/-- C9 (amended): when the timer is armed with `ocac_status` not success,
the minimum/maximum pair is chosen exactly as the claim's cascade says
(override set: `override * 1000` ms, through `int` arithmetic and a
`uint32_t` store; else weather: the weather pair; else the regular pair) —
but the 2000 ms slack is added only when the chosen minimum is nonzero;
with a zero minimum the timer is armed with 0. -/
theorem C9_amended (timeout_override : Int) (oc : ocac_status_t)
    (p : dfs_agile_cac_params) (hoc : oc ≠ .OCAC_SUCCESS) :
    (timeout_override ≠ -1 →
      (dfs_start_agile_precac_timer timeout_override oc p).1.min_precac_timeout =
        ((timeout_override * 1000) % 4294967296).toNat ∧
      (dfs_start_agile_precac_timer timeout_override oc p).1.max_precac_timeout =
        MAX_PRECAC_DURATION) ∧
    (timeout_override = -1 →
      dfs_is_pcac_on_weather_channel_for_freq p.precac_chwidth p.precac_chan_freq = true →
      (dfs_start_agile_precac_timer timeout_override oc p).1.min_precac_timeout =
        MIN_WEATHER_PRECAC_DURATION ∧
      (dfs_start_agile_precac_timer timeout_override oc p).1.max_precac_timeout =
        MAX_WEATHER_PRECAC_DURATION) ∧
    (timeout_override = -1 →
      dfs_is_pcac_on_weather_channel_for_freq p.precac_chwidth p.precac_chan_freq = false →
      (dfs_start_agile_precac_timer timeout_override oc p).1.min_precac_timeout =
        MIN_PRECAC_DURATION ∧
      (dfs_start_agile_precac_timer timeout_override oc p).1.max_precac_timeout =
        MAX_PRECAC_DURATION) ∧
    ((dfs_start_agile_precac_timer timeout_override oc p).2 =
      if (dfs_start_agile_precac_timer timeout_override oc p).1.min_precac_timeout ≠ 0
      then (dfs_start_agile_precac_timer timeout_override oc p).1.min_precac_timeout +
        EXTRA_TIME_IN_MS
      else 0) := by
  unfold dfs_start_agile_precac_timer
  simp only [hoc, if_false, ite_false]
  refine ⟨fun h1 => ?_, fun h1 h2 => ?_, fun h1 h2 => ?_, ?_⟩
  · simp [h1]
  · simp [h1, h2]
  · simp [h1, h2]
  · dsimp only
    split_ifs <;> simp_all [MIN_PRECAC_DURATION, MIN_WEATHER_PRECAC_DURATION]

theorem C9_witness :
    (ocac_status_t.OCAC_RESET ≠ ocac_status_t.OCAC_SUCCESS) ∧
    (((5 : Int) ≠ -1 →
      (dfs_start_agile_precac_timer 5 .OCAC_RESET
        { precac_chan_freq := 5300, precac_chwidth := .CH_WIDTH_80MHZ,
          min_precac_timeout := 0, max_precac_timeout := 0 }).1.min_precac_timeout =
        (((5 : Int) * 1000) % 4294967296).toNat ∧
      (dfs_start_agile_precac_timer 5 .OCAC_RESET
        { precac_chan_freq := 5300, precac_chwidth := .CH_WIDTH_80MHZ,
          min_precac_timeout := 0, max_precac_timeout := 0 }).1.max_precac_timeout =
        MAX_PRECAC_DURATION) ∧
    ((5 : Int) = -1 →
      dfs_is_pcac_on_weather_channel_for_freq phy_ch_width.CH_WIDTH_80MHZ 5300 = true →
      (dfs_start_agile_precac_timer 5 .OCAC_RESET
        { precac_chan_freq := 5300, precac_chwidth := .CH_WIDTH_80MHZ,
          min_precac_timeout := 0, max_precac_timeout := 0 }).1.min_precac_timeout =
        MIN_WEATHER_PRECAC_DURATION ∧
      (dfs_start_agile_precac_timer 5 .OCAC_RESET
        { precac_chan_freq := 5300, precac_chwidth := .CH_WIDTH_80MHZ,
          min_precac_timeout := 0, max_precac_timeout := 0 }).1.max_precac_timeout =
        MAX_WEATHER_PRECAC_DURATION) ∧
    ((5 : Int) = -1 →
      dfs_is_pcac_on_weather_channel_for_freq phy_ch_width.CH_WIDTH_80MHZ 5300 = false →
      (dfs_start_agile_precac_timer 5 .OCAC_RESET
        { precac_chan_freq := 5300, precac_chwidth := .CH_WIDTH_80MHZ,
          min_precac_timeout := 0, max_precac_timeout := 0 }).1.min_precac_timeout =
        MIN_PRECAC_DURATION ∧
      (dfs_start_agile_precac_timer 5 .OCAC_RESET
        { precac_chan_freq := 5300, precac_chwidth := .CH_WIDTH_80MHZ,
          min_precac_timeout := 0, max_precac_timeout := 0 }).1.max_precac_timeout =
        MAX_PRECAC_DURATION) ∧
    ((dfs_start_agile_precac_timer 5 .OCAC_RESET
      { precac_chan_freq := 5300, precac_chwidth := .CH_WIDTH_80MHZ,
        min_precac_timeout := 0, max_precac_timeout := 0 }).2 =
      if (dfs_start_agile_precac_timer 5 .OCAC_RESET
        { precac_chan_freq := 5300, precac_chwidth := .CH_WIDTH_80MHZ,
          min_precac_timeout := 0, max_precac_timeout := 0 }).1.min_precac_timeout ≠ 0
      then (dfs_start_agile_precac_timer 5 .OCAC_RESET
        { precac_chan_freq := 5300, precac_chwidth := .CH_WIDTH_80MHZ,
          min_precac_timeout := 0, max_precac_timeout := 0 }).1.min_precac_timeout +
        EXTRA_TIME_IN_MS
      else 0)) :=
  ⟨by decide, C9_amended 5 .OCAC_RESET
    { precac_chan_freq := 5300, precac_chwidth := .CH_WIDTH_80MHZ,
      min_precac_timeout := 0, max_precac_timeout := 0 } (by decide)⟩

/-! ## Claim C10 (frame property of the forest-level mark operations) -/

theorem markEntries_get_ne (op : PrecacTree → Nat → PrecacTree) :
    ∀ (entries : List dfs_precac_entry) (f : Nat) (j : Nat),
      firstWithinIdx entries f ≠ some j →
      (markEntriesForFreq op entries f).get? j = entries.get? j
  | [], _, _, _ => rfl
  | e :: rest, f, j, h => by
    unfold markEntriesForFreq
    unfold firstWithinIdx at h
    by_cases hin : IS_WITHIN_RANGE f e.vht80_ch_freq VHT80_FREQ_OFFSET
    · rw [if_pos hin] at h ⊢
      match j with
      | 0 => exact absurd rfl h
      | j + 1 => rfl
    · rw [if_neg hin] at h ⊢
      match j with
      | 0 => rfl
      | j + 1 =>
        have hj : firstWithinIdx rest f ≠ some j := by
          intro hc
          exact h (by rw [hc]; rfl)
        exact markEntries_get_ne op rest f j hj

theorem firstWithinIdx_markEntries (op : PrecacTree → Nat → PrecacTree) :
    ∀ (entries : List dfs_precac_entry) (f g : Nat),
      firstWithinIdx (markEntriesForFreq op entries f) g = firstWithinIdx entries g
  | [], _, _ => rfl
  | e :: rest, f, g => by
    unfold markEntriesForFreq
    by_cases hin : IS_WITHIN_RANGE f e.vht80_ch_freq VHT80_FREQ_OFFSET
    · rw [if_pos hin]
      rfl
    · rw [if_neg hin]
      unfold firstWithinIdx
      by_cases hg : IS_WITHIN_RANGE g e.vht80_ch_freq VHT80_FREQ_OFFSET
      · rw [if_pos hg, if_pos hg]
      · rw [if_neg hg, if_neg hg, firstWithinIdx_markEntries op rest f g]

theorem foldMark_get_ne (op : PrecacTree → Nat → PrecacTree) :
    ∀ (freqs : List Nat) (entries : List dfs_precac_entry) (j : Nat),
      (∀ f ∈ freqs, firstWithinIdx entries f ≠ some j) →
      (freqs.foldl (markEntriesForFreq op) entries).get? j = entries.get? j
  | [], _, _, _ => rfl
  | f :: fs, entries, j, h => by
    have h1 := h f (List.mem_cons_self f fs)
    have h2 : ∀ g ∈ fs, firstWithinIdx (markEntriesForFreq op entries f) g ≠ some j := by
      intro g hg
      rw [firstWithinIdx_markEntries]
      exact h g (List.mem_cons_of_mem f hg)
    calc (List.foldl (markEntriesForFreq op) (markEntriesForFreq op entries f) fs).get? j
        = (markEntriesForFreq op entries f).get? j := foldMark_get_ne op fs _ j h2
      _ = entries.get? j := markEntries_get_ne op entries f j h1

/-- C10: the forest-level mark-NOL and mark-CAC-done operations touch, per
processed frequency, at most the first list entry whose VHT80 center is
within 30 MHz of that frequency; every entry that is not the first match of
some processed frequency is left exactly as it was (so band trees out of
range of every listed frequency are never mutated).  `firstWithinIdx` is
the index of the first within-30 entry; `channelsForWidth` is the list of
20 MHz subchannel centers `dfs_mark_precac_done_for_freq` derives from the
operating channel. -/
theorem C10_theorem (entries : List dfs_precac_entry) (freq_lst : List Nat)
    (pri sec : Nat) (w : phy_ch_width) (j : Nat)
    (h1 : ∀ f ∈ freq_lst, firstWithinIdx entries f ≠ some j)
    (h2 : ∀ f ∈ channelsForWidth w pri sec, firstWithinIdx entries f ≠ some j) :
    (dfs_mark_precac_nol_for_freq entries freq_lst).get? j = entries.get? j ∧
    (dfs_mark_precac_done_for_freq entries pri sec w).get? j = entries.get? j := by
  constructor
  · exact foldMark_get_ne _ freq_lst entries j h1
  · unfold dfs_mark_precac_done_for_freq
    split_ifs with hp
    · rfl
    · exact foldMark_get_ne _ (channelsForWidth w pri sec) entries j h2

theorem C10_witness :
    ((∀ f ∈ [5260], firstWithinIdx
        [{ vht80_ch_freq := 5290, tree_root := dfs_create_precac_tree_for_freq 5290 },
         { vht80_ch_freq := 5530,
           tree_root := dfs_create_precac_tree_for_freq 5530 : dfs_precac_entry }] f ≠
        some 1) ∧
     (∀ f ∈ channelsForWidth .CH_WIDTH_80MHZ 5290 0, firstWithinIdx
        [{ vht80_ch_freq := 5290, tree_root := dfs_create_precac_tree_for_freq 5290 },
         { vht80_ch_freq := 5530,
           tree_root := dfs_create_precac_tree_for_freq 5530 : dfs_precac_entry }] f ≠
        some 1)) ∧
    ((dfs_mark_precac_nol_for_freq
        [{ vht80_ch_freq := 5290, tree_root := dfs_create_precac_tree_for_freq 5290 },
         { vht80_ch_freq := 5530, tree_root := dfs_create_precac_tree_for_freq 5530 }]
        [5260]).get? 1 =
      [{ vht80_ch_freq := 5290, tree_root := dfs_create_precac_tree_for_freq 5290 },
       { vht80_ch_freq := 5530,
         tree_root := dfs_create_precac_tree_for_freq 5530 : dfs_precac_entry }].get? 1 ∧
     (dfs_mark_precac_done_for_freq
        [{ vht80_ch_freq := 5290, tree_root := dfs_create_precac_tree_for_freq 5290 },
         { vht80_ch_freq := 5530, tree_root := dfs_create_precac_tree_for_freq 5530 }]
        5290 0 .CH_WIDTH_80MHZ).get? 1 =
      [{ vht80_ch_freq := 5290, tree_root := dfs_create_precac_tree_for_freq 5290 },
       { vht80_ch_freq := 5530,
         tree_root := dfs_create_precac_tree_for_freq 5530 : dfs_precac_entry }].get? 1) :=
  ⟨⟨by decide, by decide⟩,
    C10_theorem
      [{ vht80_ch_freq := 5290, tree_root := dfs_create_precac_tree_for_freq 5290 },
       { vht80_ch_freq := 5530, tree_root := dfs_create_precac_tree_for_freq 5530 }]
      [5260] 5290 0 .CH_WIDTH_80MHZ 1 (by decide) (by decide)⟩
